import Mathlib

/-!
# Verification of the `datastor` time-partitioned storage layer

A shallow embedding of the rotation state machines, run-id allocation,
archival-worker handoff and exclusive-lock discipline of the `datastor`
crate, together with proofs about the claims of its specification.

File names and paths are modelled at the level of character lists
(`List Char` for one path component, `List (List Char)` for a `PathBuf`,
mirroring `PathBuf::push`/`join` componentwise).  Timestamps
(`chrono::DateTime<Utc>`) are modelled as seconds since the Unix epoch
(plus a microsecond field where sub-second formatting matters); chrono's
proleptic Gregorian calendar (no leap seconds) is embedded by an explicit
civil-date conversion.
-/

namespace Datastor

/-! ## Fixed-width decimal / hexadecimal formatting

`format!("{:0>10}", n)`, `format!("{:016x}", n)` and the `%Y%m%d` style
timestamp formats all zero-pad to a fixed width.  `padDigits b w n` is the
big-endian list of the `w` low-order base-`b` digits of `n`. -/

def padDigits (b : Nat) : Nat → Nat → List Nat
  | 0, _ => []
  | w + 1, n => n / b ^ w % b :: padDigits b w n

def decodeAux (b : Nat) (a : Nat) (l : List Nat) : Nat :=
  l.foldl (fun acc d => acc * b + d) a

def decodeDigits (b : Nat) (l : List Nat) : Nat := decodeAux b 0 l

theorem padDigits_length (b w n : Nat) : (padDigits b w n).length = w := by
  induction w generalizing n with
  | zero => rfl
  | succ w ih => simp [padDigits, ih]

theorem padDigits_lt (b w n : Nat) (hb : 0 < b) :
    ∀ d ∈ padDigits b w n, d < b := by
  induction w generalizing n with
  | zero => intro d hd; simp [padDigits] at hd
  | succ w ih =>
    intro d hd
    simp only [padDigits, List.mem_cons] at hd
    rcases hd with h | h
    · subst h; exact Nat.mod_lt _ hb
    · exact ih n d h

theorem decodeAux_acc (b a : Nat) (l : List Nat) :
    decodeAux b a l = a * b ^ l.length + decodeAux b 0 l := by
  induction l generalizing a with
  | nil => simp [decodeAux]
  | cons x xs ih =>
    simp only [decodeAux, List.foldl_cons, List.length_cons] at *
    rw [ih (a * b + x), ih (0 * b + x)]
    ring

theorem decode_padDigits (b w n : Nat) (_hb : 0 < b) :
    decodeDigits b (padDigits b w n) = n % b ^ w := by
  induction w generalizing n with
  | zero => simp [padDigits, decodeDigits, decodeAux, Nat.mod_one]
  | succ w ih =>
    simp only [padDigits, decodeDigits, decodeAux, List.foldl_cons]
    rw [show (0 : Nat) * b + n / b ^ w % b = n / b ^ w % b by ring_nf]
    have := decodeAux_acc b (n / b ^ w % b) (padDigits b w n)
    simp only [decodeAux] at this ⊢
    rw [this, padDigits_length]
    have hrec := ih n
    simp only [decodeDigits, decodeAux] at hrec
    rw [hrec]
    rw [Nat.pow_succ, Nat.mod_mul]
    ring

theorem padDigits_inj (b w : Nat) (hb : 0 < b) {n₁ n₂ : Nat}
    (h₁ : n₁ < b ^ w) (h₂ : n₂ < b ^ w)
    (h : padDigits b w n₁ = padDigits b w n₂) : n₁ = n₂ := by
  have e := congrArg (decodeDigits b) h
  rw [decode_padDigits b w n₁ hb, decode_padDigits b w n₂ hb] at e
  rwa [Nat.mod_eq_of_lt h₁, Nat.mod_eq_of_lt h₂] at e

/-- Character of one digit, `0`-`9` then `a`-`f` (as used by `{:x}`). -/
def digitChar (d : Nat) : Char :=
  Char.ofNat (if d < 10 then 48 + d else 87 + d)

theorem digitChar_inj :
    ∀ a < 16, ∀ b < 16, digitChar a = digitChar b → a = b := by
  decide

/-- `fmtNat w n` : the decimal, zero-padded, width-`w` rendering of `n`,
as in `format!("{:0>10}", n)` (for `n < 10 ^ w`, which holds at every
use site) and the `%Y`/`%m`/`%d`/`%H` format codes. -/
def fmtNat (w n : Nat) : List Char := (padDigits 10 w n).map digitChar

/-- `fmtHex w n` : hexadecimal zero-padded rendering, `format!("{:016x}", n)`. -/
def fmtHex (w n : Nat) : List Char := (padDigits 16 w n).map digitChar

theorem fmtNat_length (w n : Nat) : (fmtNat w n).length = w := by
  simp [fmtNat, padDigits_length]

theorem map_digitChar_inj {l₁ l₂ : List Nat}
    (hl₁ : ∀ d ∈ l₁, d < 16) (hl₂ : ∀ d ∈ l₂, d < 16)
    (h : l₁.map digitChar = l₂.map digitChar) : l₁ = l₂ := by
  induction l₁ generalizing l₂ with
  | nil => cases l₂ <;> simp_all
  | cons x xs ih =>
    cases l₂ with
    | nil => simp_all
    | cons y ys =>
      simp only [List.map_cons, List.cons.injEq] at h
      have hx : x = y := digitChar_inj x (hl₁ x (by simp)) y (hl₂ y (by simp)) h.1
      have : xs = ys := ih (fun d hd => hl₁ d (by simp [hd]))
        (fun d hd => hl₂ d (by simp [hd])) h.2
      simp [hx, this]

theorem fmtNat_inj (w : Nat) {n₁ n₂ : Nat} (h₁ : n₁ < 10 ^ w) (h₂ : n₂ < 10 ^ w)
    (h : fmtNat w n₁ = fmtNat w n₂) : n₁ = n₂ := by
  apply padDigits_inj 10 w (by norm_num) h₁ h₂
  exact map_digitChar_inj
    (fun d hd => lt_trans (padDigits_lt 10 w n₁ (by norm_num) d hd) (by norm_num))
    (fun d hd => lt_trans (padDigits_lt 10 w n₂ (by norm_num) d hd) (by norm_num)) h

/-! ## The proleptic Gregorian calendar (chrono `%Y%m%d` on UTC timestamps) -/

def isLeap (y : Nat) : Bool := y % 4 == 0 && (y % 100 != 0 || y % 400 == 0)

def daysInYear (y : Nat) : Nat := if isLeap y then 366 else 365

theorem daysInYear_ge (y : Nat) : 365 ≤ daysInYear y := by
  unfold daysInYear; split <;> omega

def daysInMonth (leap : Bool) (m : Nat) : Nat :=
  match m with
  | 1 => 31
  | 2 => if leap then 29 else 28
  | 3 => 31
  | 4 => 30
  | 5 => 31
  | 6 => 30
  | 7 => 31
  | 8 => 31
  | 9 => 30
  | 10 => 31
  | 11 => 30
  | _ => 31

theorem daysInMonth_ge (leap : Bool) (m : Nat) : 28 ≤ daysInMonth leap m := by
  unfold daysInMonth
  rcases leap <;> match m with
  | 0 | 1 | 2 | 3 | 4 | 5 | 6 | 7 | 8 | 9 | 10 | 11 | (n + 12) => simp

/-- Year search, fuelled so that the recursion is structural (each step
removes at least 365 days, so any `fuel > z / 365` is enough). -/
def toYearAux : Nat → Nat → Nat → Nat × Nat
  | 0, y, z => (y, z)
  | fuel + 1, y, z =>
    if z < daysInYear y then (y, z)
    else toYearAux fuel (y + 1) (z - daysInYear y)

/-- Year and day-of-year of the day `z` days after Jan 1 of year `y`. -/
def toYear (y z : Nat) : Nat × Nat := toYearAux (z + 1) y z

/-- Month search, fuelled (each step removes at least 28 days). -/
def toMonthAux (leap : Bool) : Nat → Nat → Nat → Nat × Nat
  | 0, m, d => (m, d)
  | fuel + 1, m, d =>
    if d < daysInMonth leap m then (m, d)
    else toMonthAux leap fuel (m + 1) (d - daysInMonth leap m)

/-- Month and day-of-month (0-based) of day-of-year `d` starting at month `m`. -/
def toMonth (leap : Bool) (m d : Nat) : Nat × Nat := toMonthAux leap (d + 1) m d

/-- Civil date `(year, month, day)` of the day `z` days after 1970-01-01. -/
def civilFromDay (z : Nat) : Nat × Nat × Nat :=
  let p := toYear 1970 z
  let q := toMonth (isLeap p.1) 1 p.2
  (p.1, q.1, q.2 + 1)

/-- Total days in the `k` consecutive years starting at year `y`. -/
def sumYears (y : Nat) : Nat → Nat
  | 0 => 0
  | k + 1 => daysInYear y + sumYears (y + 1) k

/-- Total days in the `k` consecutive months starting at month `m`. -/
def sumMonths (leap : Bool) (m : Nat) : Nat → Nat
  | 0 => 0
  | k + 1 => daysInMonth leap m + sumMonths leap (m + 1) k

theorem toYearAux_spec : ∀ (fuel y z : Nat), z < 365 * fuel →
    y ≤ (toYearAux fuel y z).1 ∧
    sumYears y ((toYearAux fuel y z).1 - y) + (toYearAux fuel y z).2 = z ∧
    (toYearAux fuel y z).2 < daysInYear (toYearAux fuel y z).1 := by
  intro fuel
  induction fuel with
  | zero => intro y z h; omega
  | succ fuel ih =>
    intro y z h
    simp only [toYearAux]
    split
    · next hz => exact ⟨Nat.le_refl y, by simp [sumYears], hz⟩
    · next hz =>
      have hge := daysInYear_ge y
      obtain ⟨h₁, h₂, h₃⟩ := ih (y + 1) (z - daysInYear y) (by omega)
      refine ⟨by omega, ?_, h₃⟩
      have hk : (toYearAux fuel (y + 1) (z - daysInYear y)).1 - y =
          ((toYearAux fuel (y + 1) (z - daysInYear y)).1 - (y + 1)) + 1 := by
        omega
      rw [hk]
      have hs : ∀ k, sumYears y (k + 1) = daysInYear y + sumYears (y + 1) k :=
        fun k => rfl
      rw [hs]
      omega

theorem toYear_spec (z : Nat) : ∀ y : Nat,
    y ≤ (toYear y z).1 ∧
    sumYears y ((toYear y z).1 - y) + (toYear y z).2 = z ∧
    (toYear y z).2 < daysInYear (toYear y z).1 := fun y =>
  toYearAux_spec (z + 1) y z (by omega)

theorem toMonthAux_spec (leap : Bool) : ∀ (fuel m d : Nat), d < 28 * fuel →
    m ≤ (toMonthAux leap fuel m d).1 ∧
    sumMonths leap m ((toMonthAux leap fuel m d).1 - m) +
      (toMonthAux leap fuel m d).2 = d ∧
    (toMonthAux leap fuel m d).2 <
      daysInMonth leap (toMonthAux leap fuel m d).1 := by
  intro fuel
  induction fuel with
  | zero => intro m d h; omega
  | succ fuel ih =>
    intro m d h
    simp only [toMonthAux]
    split
    · next hd => exact ⟨Nat.le_refl m, by simp [sumMonths], hd⟩
    · next hd =>
      have hge := daysInMonth_ge leap m
      obtain ⟨h₁, h₂, h₃⟩ := ih (m + 1) (d - daysInMonth leap m) (by omega)
      refine ⟨by omega, ?_, h₃⟩
      have hk : (toMonthAux leap fuel (m + 1) (d - daysInMonth leap m)).1 - m =
          ((toMonthAux leap fuel (m + 1) (d - daysInMonth leap m)).1 - (m + 1)) + 1 := by
        omega
      rw [hk]
      have hs : ∀ k, sumMonths leap m (k + 1) =
          daysInMonth leap m + sumMonths leap (m + 1) k := fun k => rfl
      rw [hs]
      omega

theorem toMonth_spec (leap : Bool) (d : Nat) : ∀ m : Nat,
    m ≤ (toMonth leap m d).1 ∧
    sumMonths leap m ((toMonth leap m d).1 - m) + (toMonth leap m d).2 = d ∧
    (toMonth leap m d).2 < daysInMonth leap (toMonth leap m d).1 := fun m =>
  toMonthAux_spec leap (d + 1) m d (by omega)

theorem toMonth_doy_inj (leap : Bool) {d₁ d₂ : Nat}
    (h : toMonth leap 1 d₁ = toMonth leap 1 d₂) : d₁ = d₂ := by
  obtain ⟨_, hq₁, _⟩ := toMonth_spec leap d₁ 1
  obtain ⟨_, hq₂, _⟩ := toMonth_spec leap d₂ 1
  rw [h] at hq₁
  omega

theorem toYear_z_inj {z₁ z₂ : Nat} (h : toYear 1970 z₁ = toYear 1970 z₂) :
    z₁ = z₂ := by
  obtain ⟨_, hz₁, _⟩ := toYear_spec z₁ 1970
  obtain ⟨_, hz₂, _⟩ := toYear_spec z₂ 1970
  rw [h] at hz₁
  omega

/-- The civil conversion is injective: the day number is recoverable. -/
theorem civilFromDay_inj {z₁ z₂ : Nat} (h : civilFromDay z₁ = civilFromDay z₂) :
    z₁ = z₂ := by
  simp only [civilFromDay, Prod.mk.injEq] at h
  obtain ⟨hY, hM, hD⟩ := h
  have hleap : isLeap (toYear 1970 z₁).1 = isLeap (toYear 1970 z₂).1 := by rw [hY]
  rw [hleap] at hM hD
  have hpair : toMonth (isLeap (toYear 1970 z₂).1) 1 (toYear 1970 z₁).2 =
      toMonth (isLeap (toYear 1970 z₂).1) 1 (toYear 1970 z₂).2 :=
    Prod.ext_iff.mpr ⟨hM, by omega⟩
  have hdoy := toMonth_doy_inj _ hpair
  exact toYear_z_inj (Prod.ext_iff.mpr ⟨hY, hdoy⟩)

theorem daysInMonth_le (leap : Bool) (m : Nat) : daysInMonth leap m ≤ 31 := by
  unfold daysInMonth
  rcases leap <;> match m with
  | 0 | 1 | 2 | 3 | 4 | 5 | 6 | 7 | 8 | 9 | 10 | 11 | (n + 12) => simp

theorem sumMonths_full (leap : Bool) :
    sumMonths leap 1 12 = if leap then 366 else 365 := by
  rcases leap <;> rfl

theorem toMonthAux_lt (leap : Bool) : ∀ (fuel d m k : Nat), d < 28 * fuel →
    d < sumMonths leap m k → (toMonthAux leap fuel m d).1 < m + k := by
  intro fuel
  induction fuel with
  | zero => intro d m k h hd; omega
  | succ fuel ih =>
    intro d m k h hd
    simp only [toMonthAux]
    split
    · have : k ≠ 0 := by rintro rfl; simp [sumMonths] at hd
      omega
    · next hge' =>
      have hge := daysInMonth_ge leap m
      have hk : k ≠ 0 := by rintro rfl; simp [sumMonths] at hd
      obtain ⟨k', rfl⟩ : ∃ k', k = k' + 1 := ⟨k - 1, by omega⟩
      have hs : sumMonths leap m (k' + 1) =
          daysInMonth leap m + sumMonths leap (m + 1) k' := rfl
      have := ih (d - daysInMonth leap m) (m + 1) k' (by omega) (by omega)
      omega

theorem toMonth_lt (leap : Bool) (d : Nat) : ∀ m k : Nat,
    d < sumMonths leap m k → (toMonth leap m d).1 < m + k := fun m k hd =>
  toMonthAux_lt leap (d + 1) d m k (by omega) hd

theorem civil_month_day_bounds (z : Nat) :
    1 ≤ (civilFromDay z).2.1 ∧ (civilFromDay z).2.1 ≤ 12 ∧
    1 ≤ (civilFromDay z).2.2 ∧ (civilFromDay z).2.2 ≤ 31 := by
  obtain ⟨_, _, hdoy⟩ := toYear_spec z 1970
  obtain ⟨hm, _, hdd⟩ := toMonth_spec (isLeap (toYear 1970 z).1) (toYear 1970 z).2 1
  have hfull := sumMonths_full (isLeap (toYear 1970 z).1)
  have hdy : daysInYear (toYear 1970 z).1 =
      sumMonths (isLeap (toYear 1970 z).1) 1 12 := by
    rw [hfull]; unfold daysInYear; rfl
  have hlt := toMonth_lt (isLeap (toYear 1970 z).1) (toYear 1970 z).2 1 12 (by omega)
  have hle := daysInMonth_le (isLeap (toYear 1970 z).1)
    (toMonth (isLeap (toYear 1970 z).1) 1 (toYear 1970 z).2).1
  simp only [civilFromDay]
  exact ⟨hm, by omega, by omega, by omega⟩

theorem sumYears_ge (k : Nat) : ∀ y : Nat, 365 * k ≤ sumYears y k := by
  induction k with
  | zero => intro y; simp [sumYears]
  | succ k ih =>
    intro y
    have := daysInYear_ge y
    have := ih (y + 1)
    have hs : sumYears y (k + 1) = daysInYear y + sumYears (y + 1) k := rfl
    omega

/-- Up to day number 2930949 (end of year 9999) the civil year is
between 1970 and 9999, so `%Y` renders as exactly four digits. -/
theorem civil_year_bound {z : Nat} (hz : z ≤ 2930949) :
    1970 ≤ (civilFromDay z).1 ∧ (civilFromDay z).1 ≤ 9999 := by
  obtain ⟨hy, hsum, hdoy⟩ := toYear_spec z 1970
  have hge := sumYears_ge ((toYear 1970 z).1 - 1970) 1970
  simp only [civilFromDay]
  omega

/-- chrono's `%Y%m%d` date string of a UTC timestamp `t` (in seconds since
the Unix epoch), as produced by `tstamp.format("%Y%m%d").to_string()`. -/
def fmtDate (t : Nat) : List Char :=
  fmtNat 4 (civilFromDay (t / 86400)).1 ++
  fmtNat 2 (civilFromDay (t / 86400)).2.1 ++
  fmtNat 2 (civilFromDay (t / 86400)).2.2

/-- chrono's `%H` hour string of a UTC timestamp. -/
def fmtHour (t : Nat) : List Char := fmtNat 2 (t % 86400 / 3600)

/-- Distinct UTC calendar days render as distinct `%Y%m%d` strings
(for dates up to year 9999, where the year is four digits wide). -/
theorem fmtDate_inj {t₁ t₂ : Nat} (h₁ : t₁ / 86400 ≤ 2930949)
    (h₂ : t₂ / 86400 ≤ 2930949) (h : fmtDate t₁ = fmtDate t₂) :
    t₁ / 86400 = t₂ / 86400 := by
  unfold fmtDate at h
  rw [List.append_assoc, List.append_assoc] at h
  obtain ⟨hy, h'⟩ := List.append_inj h (by rw [fmtNat_length, fmtNat_length])
  obtain ⟨hm, hd⟩ := List.append_inj h' (by rw [fmtNat_length, fmtNat_length])
  obtain ⟨hy₁l, hy₁u⟩ := civil_year_bound h₁
  obtain ⟨hy₂l, hy₂u⟩ := civil_year_bound h₂
  obtain ⟨hm₁l, hm₁u, hd₁l, hd₁u⟩ := civil_month_day_bounds (t₁ / 86400)
  obtain ⟨hm₂l, hm₂u, hd₂l, hd₂u⟩ := civil_month_day_bounds (t₂ / 86400)
  have ey := fmtNat_inj 4 (by norm_num; omega) (by norm_num; omega) hy
  have em := fmtNat_inj 2 (by norm_num; omega) (by norm_num; omega) hm
  have ed := fmtNat_inj 2 (by norm_num; omega) (by norm_num; omega) hd
  exact civilFromDay_inj (by
    refine Prod.ext_iff.mpr ⟨ey, Prod.ext_iff.mpr ⟨em, ed⟩⟩)

/-- Timestamps in the same UTC hour of the same day have equal hour strings,
and consecutive hours of the same day have distinct ones. -/
theorem fmtHour_inj {t₁ t₂ : Nat} (h : fmtHour t₁ = fmtHour t₂) :
    t₁ % 86400 / 3600 = t₂ % 86400 / 3600 := by
  unfold fmtHour at h
  exact fmtNat_inj 2 (by norm_num; omega) (by norm_num; omega) h

/-! ## Paths, directory entries and the filesystem model

A path component (one file or directory name) is a `List Char`; a `PathBuf`
is its list of components, so `PathBuf::new()` is `[]` and `p.join(c)` is
`p ++ [c]`.  The filesystem visible to one handle is an association list
from file paths to file contents, a content being the list of frames
(abstracted as `Nat`) written so far. -/

abbrev Name := List Char

abbrev Path := List Name

abbrev FS := List (Path × List Nat)

def fsGet (fs : FS) (p : Path) : Option (List Nat) :=
  (fs.find? (fun e => e.1 == p)).map (fun e => e.2)

/-- `Path::exists`. -/
def fsMem (fs : FS) (p : Path) : Bool := (fsGet fs p).isSome

/-- `remove_file`. -/
def fsRemove (fs : FS) (p : Path) : FS := fs.filter (fun e => !(e.1 == p))

/-- `File::create`: creates the file, truncating any previous content. -/
def fsSet (fs : FS) (p : Path) (c : List Nat) : FS := (p, c) :: fsRemove fs p

/-- A write through a handle opened in append mode. -/
def fsAppend (fs : FS) (p : Path) (x : Nat) : FS :=
  match fsGet fs p with
  | some c => fsSet fs p (c ++ [x])
  | none => fs

theorem fsGet_remove_ne (fs : FS) (p q : Path) (h : q ≠ p) :
    fsGet (fsRemove fs p) q = fsGet fs q := by
  unfold fsGet fsRemove
  induction fs with
  | nil => simp
  | cons e es ih =>
    by_cases he : e.1 = p
    · have h₁ : (e.1 == p) = true := by simpa using he
      have h₂ : (e.1 == q) = false := by simpa [he] using fun hc => h hc.symm
      simp only [List.filter_cons, h₁, Bool.not_true, List.find?_cons, h₂, cond_false]
      exact ih
    · have h₁ : (e.1 == p) = false := by simpa using he
      simp only [List.filter_cons, h₁, Bool.not_false, if_true, ite_true,
        List.find?_cons]
      cases hq : (e.1 == q) with
      | false => simp only [hq, cond_false]; exact ih
      | true => simp only [hq, cond_true]

theorem fsGet_set_self (fs : FS) (p : Path) (c : List Nat) :
    fsGet (fsSet fs p c) p = some c := by
  simp [fsGet, fsSet, List.find?_cons]

theorem fsGet_set_ne (fs : FS) (p q : Path) (c : List Nat) (h : q ≠ p) :
    fsGet (fsSet fs p c) q = fsGet fs q := by
  have h' : (p == q) = false := by simpa using fun hc => h hc.symm
  unfold fsSet
  rw [show fsGet ((p, c) :: fsRemove fs p) q =
      (List.find? (fun e => e.1 == q) ((p, c) :: fsRemove fs p)).map
        (fun e => e.2) from rfl]
  rw [List.find?_cons]
  simp only [h', cond_false]
  exact fsGet_remove_ne fs p q h

theorem fsMem_set_self (fs : FS) (p : Path) (c : List Nat) :
    fsMem (fsSet fs p c) p = true := by
  simp [fsMem, fsGet_set_self]

theorem fsGet_append_self (fs : FS) (p : Path) (x : Nat) {c : List Nat}
    (h : fsGet fs p = some c) : fsGet (fsAppend fs p x) p = some (c ++ [x]) := by
  unfold fsAppend
  rw [h]
  exact fsGet_set_self fs p (c ++ [x])

theorem fsGet_append_ne (fs : FS) (p q : Path) (x : Nat) (h : q ≠ p) :
    fsGet (fsAppend fs p x) q = fsGet fs q := by
  unfold fsAppend
  cases hg : fsGet fs p with
  | none => rfl
  | some c => exact fsGet_set_ne fs p q (c ++ [x]) h

/-! ## Errors and checked arithmetic -/

inductive IoErrorKind where
  | invalidData
  | alreadyExists
  | invalidInput
deriving DecidableEq, Repr

def u32Max : Nat := 4294967295

def u64Max : Nat := 18446744073709551615

/-- `u32::checked_add(1)`. -/
def checkedAdd1U32 (n : Nat) : Option Nat :=
  if n + 1 ≤ u32Max then some (n + 1) else none

/-- `u64::checked_add(1)`. -/
def checkedAdd1U64 (n : Nat) : Option Nat :=
  if n + 1 ≤ u64Max then some (n + 1) else none

/-- The `as u32` cast applied to the result of `find_max_iter` at each
run-count construction site (the scan result's integer width is not fixed
by the provided sources; the cast truncates modulo 2^32 as in Rust). -/
def asU32 (n : Nat) : Nat := n % (u32Max + 1)

/-! ## Run-id allocation (`RunAllocator`) -/

/-- One immediate child of the root directory, as seen by the
construction-time scan. -/
structure Entry where
  name : Name
  isDir : Bool
deriving DecidableEq

def isDigitChar (c : Char) : Bool := 48 ≤ c.toNat && c.toNat ≤ 57

def digitVal (c : Char) : Nat := c.toNat - 48

/-- Parse a name as an unsigned integer (all-digits, non-empty). -/
def parseNumeric (s : Name) : Option Nat :=
  if !s.isEmpty && s.all isDigitChar then
    some (s.foldl (fun a c => a * 10 + digitVal c) 0)
  else none

def listMax (l : List Nat) : Nat := l.foldr max 0

def gzName : Name := "gz".data

/-- Modelled from the spec: `find_max_iter` is imported from `utils.rs` by
`timeboundary.rs` and `singleframe.rs` but its definition is not among the
provided sources.  Spec §4.3: on construction, scan the root's immediate
children for (a) directory names parseable as unsigned integers (the
`None`-extension call) and (b) archive-file names with the archive
extension (`Some("gz")`; archives are named `<original>.tar.gz`, spec §6)
whose numeric stem parses the same way, and take the maximum (0 when no
child qualifies). -/
def find_max_iter (entries : List Entry) (ext : Option Name) : Nat :=
  match ext with
  | none =>
    listMax (entries.filterMap fun e =>
      if e.isDir then parseNumeric e.name else none)
  | some ex =>
    listMax (entries.filterMap fun e =>
      if !e.isDir && ('.' :: ex).isSuffixOf e.name then
        parseNumeric (e.name.takeWhile (fun c => c ≠ '.'))
      else none)

/-- Run id allocated by `ExecCountDaily::new` (timeboundary.rs:64-71):
the directory scan only, plus one, with a checked increment.
`ExecCountHourly::new` (timeboundary.rs:229-236) is identical. -/
def ExecCountDaily.runcount (entries : List Entry) : Except IoErrorKind Nat :=
  match checkedAdd1U32 (asU32 (find_max_iter entries none)) with
  | some n => .ok n
  | none => .error .invalidData

/-- Run id allocated by `ExecCountSingleFrame::new` (singleframe.rs:252-271):
`max(dir scan + 1, gz scan + 1)`, each increment checked. -/
def ExecCountSingleFrame.runcount (entries : List Entry) : Except IoErrorKind Nat :=
  match checkedAdd1U32 (asU32 (find_max_iter entries none)) with
  | none => .error .invalidData
  | some runcount1 =>
    match checkedAdd1U32 (asU32 (find_max_iter entries (some gzName))) with
    | none => .error .invalidData
    | some runcount2 => .ok (max runcount1 runcount2)

/-- Run id allocated by `ExecCountDailySingleFrame::new`
(singleframe.rs:342-364): `max(dir scan + 1, gz scan) + 1`, both
increments checked. -/
def ExecCountDailySingleFrame.runcount (entries : List Entry) :
    Except IoErrorKind Nat :=
  match checkedAdd1U32 (asU32 (find_max_iter entries none)) with
  | none => .error .invalidData
  | some a =>
    match checkedAdd1U32 (max a (asU32 (find_max_iter entries (some gzName)))) with
    | none => .error .invalidData
    | some r => .ok r

/-- The run id as the specification words it (spec §4.3): the maximum
across both the numeric directory names and the numeric archive stems,
plus one.  Stated for comparison with the three `runcount` functions
embedded from the constructors. -/
def specRuncount (entries : List Entry) : Nat :=
  max (find_max_iter entries none) (find_max_iter entries (some gzName)) + 1

/-! ## The shared compression worker (`ArchivalService` construction)

`get_compressor` (utils.rs:205-233) consults a `lazy_static` slot holding
the already-published channel sender.  Each constructor function
(`UtcDaily::new`, `UtcSingleFrame::new`, `ExecCountDaily::new`,
`ExecCountHourly::new`, `ExecCountDailySingleFrame::new`) declares its own
`COMPRESSION_THREAD_TX` static inside its body, so the process holds one
independent slot per flavor, not one global slot.  A channel sender is
modelled by a `Nat` id; a spawned worker is recorded as (flavor, id). -/

inductive Flavor where
  | utcDaily
  | utcSingleFrame
  | execCountDaily
  | execCountHourly
  | execCountDailySingleFrame
deriving DecidableEq, Repr

structure ProcState where
  slot : Flavor → Option Nat
  nextId : Nat
  spawned : List (Flavor × Nat)

def ProcState.init : ProcState :=
  { slot := fun _ => none, nextId := 0, spawned := [] }

/-- `get_compressor` (utils.rs:205-233), called from the constructor of
flavor `f` with that flavor's static slot.  Returns the
`(compress_tx, compress_hdl)` pair handed to the new store handle: the
sender if archival is on, and the join handle only when this call spawned
the worker.  (The poisoned-mutex branch, which returns `(None, None)`, is
not modelled: lock poisoning cannot occur in a shallow embedding.) -/
def get_compressor (compress : Bool) (s : ProcState) (f : Flavor) :
    (Option Nat × Option Nat) × ProcState :=
  if compress then
    match s.slot f with
    | some tx => ((some tx, none), s)
    | none =>
      let ctx := s.nextId
      ((some ctx, some ctx),
       { slot := fun g => if g = f then some ctx else s.slot g,
         nextId := s.nextId + 1,
         spawned := s.spawned ++ [(f, ctx)] })
  else ((none, none), s)

/-- Run a sequence of store-handle constructions, each with its flavor and
`compress` flag, threading the process-wide state. -/
def runConstructions (reqs : List (Flavor × Bool)) (s : ProcState) : ProcState :=
  match reqs with
  | [] => s
  | (f, c) :: rest => runConstructions rest (get_compressor c s f).2

def spawnCount (s : ProcState) : Nat := s.spawned.length

def spawnCountFor (f : Flavor) (s : ProcState) : Nat :=
  (s.spawned.filter (fun p => p.1 == f)).length

theorem filter_single_len (q : Flavor × Nat → Bool) (x : Flavor × Nat) :
    (List.filter q [x]).length = if q x = true then 1 else 0 := by
  cases h : q x <;> simp [List.filter, h]

theorem get_compressor_spawn_inv (compress : Bool) (s : ProcState) (f g : Flavor) :
    spawnCountFor g (get_compressor compress s f).2 ≤
      spawnCountFor g s + (if s.slot g = none then 1 else 0) ∧
    ((get_compressor compress s f).2.slot g = none →
      s.slot g = none ∧
      spawnCountFor g (get_compressor compress s f).2 = spawnCountFor g s) := by
  by_cases hc : compress
  · cases hs : s.slot f with
    | some tx =>
      have he : (get_compressor compress s f).2 = s := by
        unfold get_compressor; rw [if_pos hc, hs]
      rw [he]
      exact ⟨by split <;> omega, fun h => ⟨h, rfl⟩⟩
    | none =>
      have he : (get_compressor compress s f).2 =
          { slot := fun g => if g = f then some s.nextId else s.slot g,
            nextId := s.nextId + 1,
            spawned := s.spawned ++ [(f, s.nextId)] } := by
        unfold get_compressor; rw [if_pos hc, hs]
      rw [he]
      have hlen : spawnCountFor g
          ({ slot := fun g => if g = f then some s.nextId else s.slot g,
             nextId := s.nextId + 1,
             spawned := s.spawned ++ [(f, s.nextId)] } : ProcState) =
          spawnCountFor g s + (if f = g then 1 else 0) := by
        by_cases hfg : f = g
        · subst hfg
          simp [spawnCountFor, List.filter_append, filter_single_len]
        · simp [spawnCountFor, List.filter_append, filter_single_len, hfg]
      rw [hlen]
      constructor
      · by_cases hg : g = f
        · subst hg; rw [if_pos rfl, if_pos hs]
        · rw [if_neg (fun e => hg e.symm)]; omega
      · intro hnone
        have hnone' : (if g = f then some s.nextId else s.slot g) = none := hnone
        by_cases hg : g = f
        · rw [if_pos hg] at hnone'; cases hnone'
        · rw [if_neg hg] at hnone'
          exact ⟨hnone', by rw [if_neg (fun e => hg e.symm)]; omega⟩
  · have he : (get_compressor compress s f).2 = s := by
      unfold get_compressor; rw [if_neg hc]
    rw [he]
    exact ⟨by split <;> omega, fun h => ⟨h, rfl⟩⟩

/-- Invariant: a flavor has spawned at most one worker so far, and has
spawned none while its slot is still unset. -/
def ProcInv (s : ProcState) : Prop :=
  ∀ f, spawnCountFor f s ≤ 1 ∧ (s.slot f = none → spawnCountFor f s = 0)

theorem procInv_init : ProcInv ProcState.init := by
  intro f
  simp [ProcState.init, spawnCountFor]

theorem procInv_step (compress : Bool) (s : ProcState) (f : Flavor)
    (h : ProcInv s) : ProcInv (get_compressor compress s f).2 := by
  intro g
  obtain ⟨h₁, h₂⟩ := h g
  obtain ⟨hstep₁, hstep₂⟩ := get_compressor_spawn_inv compress s f g
  constructor
  · by_cases hg : s.slot g = none
    · have h0 := h₂ hg
      rw [if_pos hg] at hstep₁
      omega
    · rw [if_neg hg] at hstep₁
      omega
  · intro hnone
    obtain ⟨hold, heq⟩ := hstep₂ hnone
    rw [heq]
    exact h₂ hold

theorem procInv_run (reqs : List (Flavor × Bool)) (s : ProcState)
    (h : ProcInv s) : ProcInv (runConstructions reqs s) := by
  induction reqs generalizing s with
  | nil => exact h
  | cons r rest ih =>
    exact ih _ (procInv_step r.2 s r.1 h)

/-! ## Time-based rotation (`BoundaryTracker`)

The observable effects of one `store` call are the filesystem update and a
trace of events: archival requests sent on the compression channel
(`tx.send(Some(dir))`) and directory creations (`create_dir_all`), in
program order. -/

inductive Event where
  | send (dir : Path)
  | mkdir (dir : Path)
deriving DecidableEq, Repr

inductive CheckedFileName where
  | New (filename : Path)
  | Old (filename : Path)
deriving DecidableEq, Repr

def CheckedFileName.getFilename : CheckedFileName → Path
  | .New f => f
  | .Old f => f

/-- `CheckedFileName::exists` (utils.rs:188-193). -/
def CheckedFileName.isOld : CheckedFileName → Bool
  | .New _ => false
  | .Old _ => true

/-- The fields of the `UtcDailyBoundary` trait state shared by `UtcDaily`
and `UtcSingleFrame`: root, current segment directory (`PathBuf::new()` at
construction), tracked date string, and whether a compression sender is
held (`compress_tx.is_some()`). -/
structure DailyCore where
  root_dir : Path
  current_dir : Path
  last_date : Option Name
  compress : Bool
deriving DecidableEq, Repr

/-- `UtcDailyBoundary::check_time_utcdaily` (utils.rs:64-91), the
daily-append shape: on a date change (including the `None` initial date)
the previous `current_dir` is sent to the compressor (when enabled);
then, unconditionally, the day directory is created and the filename
`<date>000000.<ext>` inside it is classified `New`/`Old`. -/
def check_time_utcdaily (ext : Name) (s : DailyCore) (fs : FS) (t : Nat) :
    DailyCore × List Event × CheckedFileName :=
  let date := fmtDate t
  let ev₀ : List Event :=
    if s.last_date ≠ some date ∧ s.compress then [Event.send s.current_dir]
    else []
  let current_dir := s.root_dir ++ [date]
  let filename := current_dir ++ [date ++ "000000.".data ++ ext]
  ({ s with current_dir := current_dir, last_date := some date },
   ev₀ ++ [Event.mkdir current_dir],
   if fsMem fs filename then .Old filename else .New filename)

/-- The single-frame filename `YYYYMMDDHHMMSS.ffffff.<ext>` (spec §6),
for a timestamp of `t` whole seconds and `μ` microseconds. -/
def singleFrameName (t μ : Nat) (ext : Name) : Name :=
  fmtDate t ++ fmtNat 2 (t % 86400 / 3600) ++ fmtNat 2 (t % 3600 / 60) ++
  fmtNat 2 (t % 60) ++ ".".data ++ fmtNat 6 μ ++ ".".data ++ ext

/-- Modelled from the spec: `UtcSingleFrame::store` calls
`check_time_utcdaily(tstamp, true)`, a variant of the daily check whose
`single: true` filename shape is not present in the provided `utils.rs`
(the file carries only the flagless daily shape).  Spec §4.1/§6: same
daily rotation, but the target filename embeds the full sub-second time,
`root/YYYYMMDD/YYYYMMDDHHMMSS.ffffff.<ext>`. -/
def check_time_utcdaily_single (ext : Name) (s : DailyCore) (fs : FS)
    (t μ : Nat) : DailyCore × List Event × CheckedFileName :=
  let date := fmtDate t
  let ev₀ : List Event :=
    if s.last_date ≠ some date ∧ s.compress then [Event.send s.current_dir]
    else []
  let current_dir := s.root_dir ++ [date]
  let filename := current_dir ++ [singleFrameName t μ ext]
  ({ s with current_dir := current_dir, last_date := some date },
   ev₀ ++ [Event.mkdir current_dir],
   if fsMem fs filename then .Old filename else .New filename)

/-! ### `UtcDaily` -/

structure UtcDailyState where
  core : DailyCore
  writer : Option Path
deriving DecidableEq, Repr

namespace UtcDaily

/-- The rotation-relevant state of a freshly constructed `UtcDaily`
(utcdaily.rs:90-100): empty `current_dir` (`PathBuf::new()`), no tracked
date, no writer. -/
def initState (root : Path) (compress : Bool) : UtcDailyState :=
  { core := { root_dir := root, current_dir := [], last_date := none,
              compress := compress },
    writer := none }

/-- `UtcDaily::get_writer_checked` (utcdaily.rs:103-121): a `New` filename
is created (truncating) and becomes the cached writer; an `Old` filename
reuses the cached writer when present, else opens the file in append mode.
Returns the path the writer actually targets. -/
def get_writer_checked (s : UtcDailyState) (fs : FS)
    (filename : CheckedFileName) : UtcDailyState × FS × Path :=
  match filename with
  | .New f => ({ s with writer := some f }, fsSet fs f [], f)
  | .Old f =>
    match s.writer with
    | some w => (s, fs, w)
    | none => ({ s with writer := some f }, fs, f)

/-- `UtcDaily::store` (utcdaily.rs:173-178 and the Json/Raw variants):
rotation check, writer acquisition, one frame written and flushed. -/
def store (ext : Name) (s : UtcDailyState) (fs : FS) (t : Nat)
    (frame : Nat) : UtcDailyState × FS × List Event × Path :=
  let r := check_time_utcdaily ext s.core fs t
  let w := get_writer_checked { core := r.1, writer := s.writer } fs r.2.2
  (w.1, fsAppend w.2.1 w.2.2 frame, r.2.1, r.2.2.getFilename)

end UtcDaily

/-! ### `UtcHourly` (hourly-append flavor) -/

structure UtcHourlyState where
  core : DailyCore
  last_hour : Option Name
  writer : Option Path
deriving DecidableEq, Repr

/-- `UtcHourlyBoundary::check_time_utchourly` (utils.rs:20-51): a date
change sends the previous directory to the compressor (when enabled),
creates the new day directory and clears the tracked hour; then a changed
(or cleared) hour classifies `<date><hour>0000.<ext>`; an unchanged hour
returns the `InvalidInput` sentinel, meaning the per-hour writer is still
current. -/
def check_time_utchourly (ext : Name) (s : UtcHourlyState) (fs : FS)
    (t : Nat) : UtcHourlyState × List Event × Except IoErrorKind CheckedFileName :=
  let date := fmtDate t
  let hour := fmtHour t
  let step :=
    if s.core.last_date ≠ some date then
      (({ s with
          core := { s.core with
            current_dir := s.core.root_dir ++ [date],
            last_date := some date },
          last_hour := none } : UtcHourlyState),
       (if s.core.compress then [Event.send s.core.current_dir] else []) ++
         [Event.mkdir (s.core.root_dir ++ [date])])
    else (s, ([] : List Event))
  if step.1.last_hour ≠ some hour then
    let filename := step.1.core.current_dir ++ [date ++ hour ++ "0000.".data ++ ext]
    (step.1, step.2,
     .ok (if fsMem fs filename then .Old filename else .New filename))
  else (step.1, step.2, .error .invalidInput)

namespace UtcHourly

/-- Modelled from the spec: the `UtcHourly` handle is exercised by the
crate's doc examples but its struct and `store` impl are not among the
provided sources (only the `check_time_utchourly` trait method is).  Spec
§4.1/§8: the hourly-append flavor keeps one open file per hour and appends
into it; a `New` classification creates and initializes the file, an `Old`
one opens it for append, and the same-hour sentinel reuses the open
writer.  The tracked hour is recorded when a file is opened. -/
def store (ext : Name) (s : UtcHourlyState) (fs : FS) (t : Nat)
    (frame : Nat) : UtcHourlyState × FS × List Event × Path :=
  let r := check_time_utchourly ext s fs t
  match r.2.2 with
  | .ok (.New f) =>
    ({ r.1 with writer := some f, last_hour := some (fmtHour t) },
     fsAppend (fsSet fs f []) f frame, r.2.1, f)
  | .ok (.Old f) =>
    ({ r.1 with writer := some f, last_hour := some (fmtHour t) },
     fsAppend fs f frame, r.2.1, f)
  | .error _ =>
    match r.1.writer with
    | some w => (r.1, fsAppend fs w frame, r.2.1, w)
    | none => (r.1, fs, r.2.1, r.1.core.current_dir)

/-- Modelled from the spec: fresh `UtcHourly` state, mirroring
`UtcDaily::new`. -/
def initState (root : Path) (compress : Bool) : UtcHourlyState :=
  { core := { root_dir := root, current_dir := [], last_date := none,
              compress := compress },
    last_hour := none, writer := none }

end UtcHourly

/-! ### `UtcSingleFrame` -/

namespace UtcSingleFrame

/-- Fresh `UtcSingleFrame` state (singleframe.rs:74-91): empty
`current_dir`, no tracked date. -/
def initState (root : Path) (compress : Bool) : DailyCore :=
  { root_dir := root, current_dir := [], last_date := none,
    compress := compress }

/-- `UtcSingleFrame::store` (singleframe.rs:164-208): single-frame check,
then an existing target is an `AlreadyExists` error (nothing written),
else the file is created and the frame written. -/
def store (ext : Name) (s : DailyCore) (fs : FS) (t μ : Nat)
    (frame : Nat) : DailyCore × FS × List Event × Except IoErrorKind Path :=
  let r := check_time_utcdaily_single ext s fs t μ
  match r.2.2 with
  | .Old _ => (r.1, fs, r.2.1, .error .alreadyExists)
  | .New f => (r.1, fsSet fs f [frame], r.2.1, .ok f)

end UtcSingleFrame

/-! ## Run-count single-frame stores -/

structure ExecCountSingleFrameState where
  root_dir : Path
  framecount : Nat
deriving DecidableEq, Repr

/-- `ExecCountSingleFrame::store_custom_writer` (singleframe.rs:287-305):
the frame counter is incremented (checked, `u64`) and written back
*before* the existence check, so an `AlreadyExists` failure leaves the
counter advanced. -/
def ExecCountSingleFrame.store_custom_writer (ext : Name)
    (s : ExecCountSingleFrameState) (fs : FS) :
    ExecCountSingleFrameState × Except IoErrorKind Path :=
  match checkedAdd1U64 s.framecount with
  | none => (s, .error .invalidData)
  | some fileidx =>
    let s' := { s with framecount := fileidx }
    let filename := s.root_dir ++ [fmtNat 20 fileidx ++ ".".data ++ ext]
    if fsMem fs filename then (s', .error .alreadyExists)
    else (s', .ok filename)

structure ExecCountDailySingleFrameState where
  root_dir : Path
  daycount : Nat
  framecount : Nat
  last_dir : Path
  compress : Bool
deriving DecidableEq, Repr

/-- `tdelta.as_secs_f64() / (24.0*3600.0)`, `floor`, `as u32`: exact for
durations below 2^53 seconds; the final float-to-int cast saturates at
`u32::MAX`. -/
def daycountOf (tdeltaSecs : Nat) : Nat := min (tdeltaSecs / 86400) u32Max

/-- `ExecCountDailySingleFrame::store_custom_writer`
(singleframe.rs:391-421): a day advance queues the finished day directory
(when compression is on), resets the frame counter to zero and creates the
new day directory; otherwise the frame counter is incremented (checked,
`u32`) before the existence check. -/
def ExecCountDailySingleFrame.store_custom_writer (ext : Name)
    (s : ExecCountDailySingleFrameState) (fs : FS) (tdeltaSecs : Nat) :
    ExecCountDailySingleFrameState × List Event × Except IoErrorKind Path :=
  let daycount := daycountOf tdeltaSecs
  if daycount > s.daycount then
    let ev := if s.compress then [Event.send s.last_dir] else []
    let last_dir := s.root_dir ++ [fmtNat 10 daycount]
    let s' := { s with framecount := 0, daycount := daycount,
                       last_dir := last_dir }
    let filename := last_dir ++ [fmtNat 10 0 ++ ".".data ++ ext]
    if fsMem fs filename then
      (s', ev ++ [Event.mkdir last_dir], .error .alreadyExists)
    else (s', ev ++ [Event.mkdir last_dir], .ok filename)
  else
    match checkedAdd1U32 s.framecount with
    | none => (s, [], .error .invalidData)
    | some fileidx =>
      let s' := { s with framecount := fileidx }
      let filename := s.last_dir ++ [fmtNat 10 fileidx ++ ".".data ++ ext]
      if fsMem fs filename then (s', [], .error .alreadyExists)
      else (s', [], .ok filename)

/-! ## Handle teardown (`Drop` impls) -/

/-- `Drop for UtcDaily` (utcdaily.rs:57-66): the stop sentinel is sent and
the worker joined only when the handle holds both the sender and the
`JoinHandle` (i.e. it spawned the worker).  Result: (sentinel sent,
worker joined). -/
def UtcDaily.dropEffect (tx hdl : Bool) : Bool × Bool :=
  if tx && hdl then (true, true) else (false, false)

/-- `Drop for ExecCountDaily` (timeboundary.rs:36-45): sentinel sent iff a
sender is held, worker joined iff the `JoinHandle` is held.  `Drop for
UtcSingleFrame` (singleframe.rs:56-65), `ExecCountHourly`
(timeboundary.rs:201-210) and `ExecCountDailySingleFrame`
(singleframe.rs:324-333) are textually identical. -/
def ExecCountDaily.dropEffect (tx hdl : Bool) : Bool × Bool := (tx, hdl)

/-! ## Exclusive lock (`get_lock`, `LockFile`) -/

/-- bytes of the `b"LOCK"` marker written into the lock file. -/
def lockContent : List Nat := [76, 79, 67, 75]

/-- The lock-file path `root/<type_hash as {:016x}>.lock`
(utils.rs:282). -/
def lockPath (root : Path) (hash : Nat) : Path :=
  root ++ [fmtHex 16 hash ++ ".lock".data]

/-- `get_lock` (utils.rs:281-298): refuses immediately (no waiting) with
`AlreadyExists` when the lock file is present, else creates it with the
marker content. -/
def get_lock (root : Path) (hash : Nat) (fs : FS) :
    Except IoErrorKind (FS × Path) :=
  if fsMem fs (lockPath root hash) then .error .alreadyExists
  else .ok (fsSet fs (lockPath root hash) lockContent, lockPath root hash)

/-- `Drop for LockFile` (lock/mod.rs:28-33): remove the lock file and
release the OS lock, best effort. -/
def LockFile.dropEffect (fs : FS) (path : Path) : FS := fsRemove fs path

theorem fsGet_remove_self (fs : FS) (p : Path) :
    fsGet (fsRemove fs p) p = none := by
  unfold fsGet fsRemove
  induction fs with
  | nil => simp
  | cons e es ih =>
    by_cases he : e.1 = p
    · have h₁ : (e.1 == p) = true := by simpa using he
      simp only [List.filter_cons, h₁, Bool.not_true]
      exact ih
    · have h₁ : (e.1 == p) = false := by simpa using he
      simp only [List.filter_cons, h₁, Bool.not_false, if_true, ite_true,
        List.find?_cons, h₁, cond_false]
      exact ih

theorem fmtHex_length (w n : Nat) : (fmtHex w n).length = w := by
  simp [fmtHex, padDigits_length]

/-! ## Claim theorems -/

/-- C7: while one handle holds the exclusive lock for a root and format
kind, a second construction against the same root and kind fails
immediately with the lock-contention (`AlreadyExists`) error; after the
first handle's teardown removes `root/<type_hash as 16-digit hex>.lock`,
a subsequent construction succeeds. -/
theorem C7_lock_exclusion (root : Path) (hash : Nat) (fs : FS)
    (hfree : fsMem fs (lockPath root hash) = false) :
    get_lock root hash fs =
      .ok (fsSet fs (lockPath root hash) lockContent, lockPath root hash) ∧
    get_lock root hash (fsSet fs (lockPath root hash) lockContent) =
      .error .alreadyExists ∧
    get_lock root hash
        (LockFile.dropEffect (fsSet fs (lockPath root hash) lockContent)
          (lockPath root hash)) =
      .ok (fsSet
            (LockFile.dropEffect (fsSet fs (lockPath root hash) lockContent)
              (lockPath root hash))
            (lockPath root hash) lockContent, lockPath root hash) ∧
    lockPath root hash = root ++ [fmtHex 16 hash ++ ".lock".data] ∧
    (fmtHex 16 hash).length = 16 := by
  refine ⟨?_, ?_, ?_, rfl, fmtHex_length 16 hash⟩
  · unfold get_lock
    rw [hfree]
    simp
  · unfold get_lock
    rw [fsMem_set_self]
    simp
  · unfold get_lock LockFile.dropEffect
    have : fsMem (fsRemove (fsSet fs (lockPath root hash) lockContent)
        (lockPath root hash)) (lockPath root hash) = false := by
      unfold fsMem
      rw [fsGet_remove_self]
      rfl
    rw [this]
    simp

/-- C7 witness at a concrete root, hash and empty filesystem. -/
theorem C7_lock_exclusion_witness :
    fsMem [] (lockPath ["root".data] 255) = false ∧
    (get_lock ["root".data] 255 [] =
      .ok (fsSet [] (lockPath ["root".data] 255) lockContent,
           lockPath ["root".data] 255) ∧
     get_lock ["root".data] 255
        (fsSet [] (lockPath ["root".data] 255) lockContent) =
      .error .alreadyExists ∧
     get_lock ["root".data] 255
        (LockFile.dropEffect (fsSet [] (lockPath ["root".data] 255) lockContent)
          (lockPath ["root".data] 255)) =
      .ok (fsSet
            (LockFile.dropEffect
              (fsSet [] (lockPath ["root".data] 255) lockContent)
              (lockPath ["root".data] 255))
            (lockPath ["root".data] 255) lockContent,
           lockPath ["root".data] 255) ∧
     lockPath ["root".data] 255 =
       ["root".data] ++ [fmtHex 16 255 ++ ".lock".data] ∧
     (fmtHex 16 255).length = 16) :=
  ⟨by decide, C7_lock_exclusion ["root".data] 255 [] (by decide)⟩

/-- C5: every checked counter increment (run id at construction, frame
counter during a store call) reports `InvalidData` exactly when the
increment would exceed the counter's integer maximum, and on success the
counter holds exactly the old value plus one — no silent wrap.  (Day
counters are recomputed from the elapsed duration and assigned, never
incremented.) -/
theorem C5_no_silent_wrap :
    (∀ e : List Entry, asU32 (find_max_iter e none) = u32Max →
      ExecCountDaily.runcount e = .error .invalidData ∧
      ExecCountSingleFrame.runcount e = .error .invalidData ∧
      ExecCountDailySingleFrame.runcount e = .error .invalidData) ∧
    (∀ e : List Entry, asU32 (find_max_iter e none) < u32Max →
      ExecCountDaily.runcount e = .ok (asU32 (find_max_iter e none) + 1)) ∧
    (∀ (ext : Name) (s : ExecCountSingleFrameState) (fs : FS),
      s.framecount = u64Max →
      ExecCountSingleFrame.store_custom_writer ext s fs =
        (s, .error .invalidData)) ∧
    (∀ (ext : Name) (s : ExecCountSingleFrameState) (fs : FS),
      s.framecount < u64Max →
      (ExecCountSingleFrame.store_custom_writer ext s fs).1.framecount =
        s.framecount + 1) ∧
    (∀ (ext : Name) (s : ExecCountDailySingleFrameState) (fs : FS) (td : Nat),
      daycountOf td ≤ s.daycount → s.framecount = u32Max →
      ExecCountDailySingleFrame.store_custom_writer ext s fs td =
        (s, [], .error .invalidData)) ∧
    (∀ (ext : Name) (s : ExecCountDailySingleFrameState) (fs : FS) (td : Nat),
      daycountOf td ≤ s.daycount → s.framecount < u32Max →
      (ExecCountDailySingleFrame.store_custom_writer ext s fs td).1.framecount =
        s.framecount + 1) := by
  refine ⟨?_, ?_, ?_, ?_, ?_, ?_⟩
  · intro e h
    unfold ExecCountDaily.runcount ExecCountSingleFrame.runcount
      ExecCountDailySingleFrame.runcount checkedAdd1U32
    rw [h]
    simp [u32Max]
  · intro e h
    unfold ExecCountDaily.runcount checkedAdd1U32
    rw [if_pos (by omega)]
  · intro ext s fs h
    unfold ExecCountSingleFrame.store_custom_writer checkedAdd1U64
    rw [h]
    simp [u64Max]
  · intro ext s fs h
    unfold ExecCountSingleFrame.store_custom_writer checkedAdd1U64
    rw [if_pos (by omega)]
    simp only
    split <;> rfl
  · intro ext s fs td hday h
    unfold ExecCountDailySingleFrame.store_custom_writer checkedAdd1U32
    rw [if_neg (by omega), h]
    simp [u32Max]
  · intro ext s fs td hday h
    unfold ExecCountDailySingleFrame.store_custom_writer checkedAdd1U32
    rw [if_neg (by omega), if_pos (by omega)]
    simp only
    split <;> rfl

/-- C5 witness: concrete instances of each conjunct. -/
theorem C5_no_silent_wrap_witness :
    (ExecCountDaily.runcount [⟨"4294967295".data, true⟩] =
      .error .invalidData) ∧
    (ExecCountDaily.runcount [] = .ok 1) ∧
    (ExecCountSingleFrame.store_custom_writer "bin".data
        ⟨["r".data], u64Max⟩ [] = (⟨["r".data], u64Max⟩, .error .invalidData)) ∧
    ((ExecCountSingleFrame.store_custom_writer "bin".data
        ⟨["r".data], 7⟩ []).1.framecount = 8) ∧
    (ExecCountDailySingleFrame.store_custom_writer "bin".data
        ⟨["r".data], 0, u32Max, ["r".data, "0000000000".data], false⟩ [] 0 =
      (⟨["r".data], 0, u32Max, ["r".data, "0000000000".data], false⟩, [],
       .error .invalidData)) ∧
    ((ExecCountDailySingleFrame.store_custom_writer "bin".data
        ⟨["r".data], 0, 7, ["r".data, "0000000000".data], false⟩ [] 0).1.framecount
      = 8) :=
  ⟨(C5_no_silent_wrap.1 [⟨"4294967295".data, true⟩] (by decide)).1,
   C5_no_silent_wrap.2.1 [] (by decide),
   C5_no_silent_wrap.2.2.1 "bin".data ⟨["r".data], u64Max⟩ [] rfl,
   C5_no_silent_wrap.2.2.2.1 "bin".data ⟨["r".data], 7⟩ [] (by decide),
   C5_no_silent_wrap.2.2.2.2.1 "bin".data
     ⟨["r".data], 0, u32Max, ["r".data, "0000000000".data], false⟩ [] 0
     (by decide) rfl,
   C5_no_silent_wrap.2.2.2.2.2 "bin".data
     ⟨["r".data], 0, 7, ["r".data, "0000000000".data], false⟩ [] 0
     (by decide) (by decide)⟩

/-- One-step characterization of `ExecCountSingleFrame::store_custom_writer`
below the counter ceiling: the counter advances first, then the existence
check decides between `AlreadyExists` and the fresh path. -/
theorem ECSF_store_eq (ext : Name) (s : ExecCountSingleFrameState) (fs : FS)
    (h : s.framecount < u64Max) :
    ExecCountSingleFrame.store_custom_writer ext s fs =
      ({ s with framecount := s.framecount + 1 },
       if fsMem fs (s.root_dir ++ [fmtNat 20 (s.framecount + 1) ++ ".".data ++ ext])
       then .error .alreadyExists
       else .ok (s.root_dir ++ [fmtNat 20 (s.framecount + 1) ++ ".".data ++ ext])) := by
  unfold ExecCountSingleFrame.store_custom_writer checkedAdd1U64
  rw [if_pos (by omega)]
  simp only
  split
  · rfl
  · rfl

/-- One-step characterization of the same-day branch of
`ExecCountDailySingleFrame::store_custom_writer` below the counter
ceiling. -/
theorem ECDSF_store_sameday_eq (ext : Name)
    (s : ExecCountDailySingleFrameState) (fs : FS) (td : Nat)
    (hday : daycountOf td ≤ s.daycount) (h : s.framecount < u32Max) :
    ExecCountDailySingleFrame.store_custom_writer ext s fs td =
      ({ s with framecount := s.framecount + 1 }, [],
       if fsMem fs (s.last_dir ++ [fmtNat 10 (s.framecount + 1) ++ ".".data ++ ext])
       then .error .alreadyExists
       else .ok (s.last_dir ++ [fmtNat 10 (s.framecount + 1) ++ ".".data ++ ext])) := by
  unfold ExecCountDailySingleFrame.store_custom_writer checkedAdd1U32
  rw [if_neg (by omega), if_pos (by omega)]
  simp only
  split
  · rfl
  · rfl

/-- C10: when a run-count single-frame store fails with `AlreadyExists`,
the in-memory frame counter was already advanced before the existence
check, so the failing index is permanently skipped and the next call
targets the following index; the handle's state is not left unchanged on
error.  (Both `ExecCountSingleFrame` and, in its same-day branch,
`ExecCountDailySingleFrame`.) -/
theorem C10_counter_advances_on_error (ext : Name)
    (s : ExecCountSingleFrameState) (fs : FS)
    (hover : s.framecount < u64Max)
    (hexists : fsMem fs
      (s.root_dir ++ [fmtNat 20 (s.framecount + 1) ++ ".".data ++ ext]) = true) :
    (ExecCountSingleFrame.store_custom_writer ext s fs =
      ({ s with framecount := s.framecount + 1 }, .error .alreadyExists)) ∧
    (s.framecount + 1 < u64Max →
      ∀ fs' : FS,
        fsMem fs'
          (s.root_dir ++ [fmtNat 20 (s.framecount + 2) ++ ".".data ++ ext]) = false →
        ExecCountSingleFrame.store_custom_writer ext
            { s with framecount := s.framecount + 1 } fs' =
          ({ s with framecount := s.framecount + 2 },
           .ok (s.root_dir ++ [fmtNat 20 (s.framecount + 2) ++ ".".data ++ ext]))) ∧
    (∀ (s₂ : ExecCountDailySingleFrameState) (fs₂ : FS) (td : Nat),
      daycountOf td ≤ s₂.daycount → s₂.framecount < u32Max →
      fsMem fs₂
        (s₂.last_dir ++ [fmtNat 10 (s₂.framecount + 1) ++ ".".data ++ ext]) = true →
      ExecCountDailySingleFrame.store_custom_writer ext s₂ fs₂ td =
        ({ s₂ with framecount := s₂.framecount + 1 }, [],
         .error .alreadyExists)) := by
  refine ⟨?_, ?_, ?_⟩
  · rw [ECSF_store_eq ext s fs hover, if_pos hexists]
  · intro hover' fs' hfree
    rw [ECSF_store_eq ext { s with framecount := s.framecount + 1 } fs' hover']
    simp only [show s.framecount + 1 + 1 = s.framecount + 2 from rfl]
    rw [if_neg (by rw [hfree]; exact Bool.false_ne_true)]
  · intro s₂ fs₂ td hday hover₂ hex₂
    rw [ECDSF_store_sameday_eq ext s₂ fs₂ td hday hover₂, if_pos hex₂]

/-- C10 witness: concrete handle whose next index is already on disk. -/
theorem C10_counter_advances_on_error_witness :
    (ExecCountSingleFrame.store_custom_writer "bin".data ⟨["r".data], 4⟩
        [(["r".data, ("00000000000000000005." ++ "bin").data], [])] =
      (⟨["r".data], 5⟩, .error .alreadyExists)) ∧
    ((5 : Nat) < u64Max →
      ∀ fs' : FS,
        fsMem fs'
          (["r".data] ++ [fmtNat 20 6 ++ ".".data ++ "bin".data]) = false →
        ExecCountSingleFrame.store_custom_writer "bin".data ⟨["r".data], 5⟩ fs' =
          (⟨["r".data], 6⟩,
           .ok (["r".data] ++ [fmtNat 20 6 ++ ".".data ++ "bin".data]))) ∧
    (∀ (s₂ : ExecCountDailySingleFrameState) (fs₂ : FS) (td : Nat),
      daycountOf td ≤ s₂.daycount → s₂.framecount < u32Max →
      fsMem fs₂
        (s₂.last_dir ++ [fmtNat 10 (s₂.framecount + 1) ++ ".".data ++ "bin".data]) = true →
      ExecCountDailySingleFrame.store_custom_writer "bin".data s₂ fs₂ td =
        ({ s₂ with framecount := s₂.framecount + 1 }, [],
         .error .alreadyExists)) := by
  have h := C10_counter_advances_on_error "bin".data ⟨["r".data], 4⟩
    [(["r".data, ("00000000000000000005." ++ "bin").data], [])]
    (by decide) (by decide)
  exact ⟨h.1, h.2.1, h.2.2⟩

/-- C1 counterexample: a root whose only numeric evidence is the archive
file `0000000005.tar.gz` makes `ExecCountDaily::new` allocate run id 1
(its scan ignores archive names), not the spec's `max(dirs, archives)+1 = 6`;
and a root holding both directory `0000000005` and archive
`0000000005.tar.gz` makes `ExecCountDailySingleFrame::new` allocate 7,
again not 6: the claim fails for two of the three constructors. -/
theorem C1_counterexample :
    ExecCountDaily.runcount [⟨"0000000005.tar.gz".data, false⟩] = .ok 1 ∧
    specRuncount [⟨"0000000005.tar.gz".data, false⟩] = 6 ∧
    ExecCountDailySingleFrame.runcount
      [⟨"0000000005".data, true⟩, ⟨"0000000005.tar.gz".data, false⟩] = .ok 7 ∧
    specRuncount
      [⟨"0000000005".data, true⟩, ⟨"0000000005.tar.gz".data, false⟩] = 6 := by
  refine ⟨rfl, by decide, rfl, by decide⟩

/-- C1 amended: only `ExecCountSingleFrame::new` allocates the spec's
`max(max numeric dir, max numeric archive stem) + 1`; `ExecCountDaily::new`
(and the identical `ExecCountHourly::new`) use the directory scan only,
allocating `max numeric dir + 1`; and `ExecCountDailySingleFrame::new`
allocates `max(max numeric dir + 1, max numeric archive stem) + 1`, which
exceeds the spec's value by one whenever the archive maximum is at most
the directory maximum. -/
theorem C1_amended (e : List Entry)
    (hd : find_max_iter e none + 1 < u32Max)
    (hg : find_max_iter e (some gzName) < u32Max) :
    ExecCountSingleFrame.runcount e = .ok (specRuncount e) ∧
    ExecCountDaily.runcount e = .ok (find_max_iter e none + 1) ∧
    ExecCountDailySingleFrame.runcount e =
      .ok (max (find_max_iter e none + 1)
            (find_max_iter e (some gzName)) + 1) := by
  have hdu : asU32 (find_max_iter e none) = find_max_iter e none := by
    unfold asU32; exact Nat.mod_eq_of_lt (by omega)
  have hgu : asU32 (find_max_iter e (some gzName)) =
      find_max_iter e (some gzName) := by
    unfold asU32; exact Nat.mod_eq_of_lt (by omega)
  refine ⟨?_, ?_, ?_⟩
  · unfold ExecCountSingleFrame.runcount checkedAdd1U32
    rw [hdu, hgu, if_pos (by omega), if_pos (by omega)]
    simp only
    unfold specRuncount
    congr 1
    omega
  · unfold ExecCountDaily.runcount checkedAdd1U32
    rw [hdu, if_pos (by omega)]
  · unfold ExecCountDailySingleFrame.runcount checkedAdd1U32
    rw [hdu, hgu, if_pos (by omega)]
    simp only
    rw [if_pos (by omega)]

/-- C1 amended, witness: the counterexample roots, where the three
formulas give 6, 1 and 7. -/
theorem C1_amended_witness :
    ExecCountSingleFrame.runcount
      [⟨"0000000005".data, true⟩, ⟨"0000000005.tar.gz".data, false⟩] =
      .ok (specRuncount
        [⟨"0000000005".data, true⟩, ⟨"0000000005.tar.gz".data, false⟩]) ∧
    ExecCountDaily.runcount
      [⟨"0000000005".data, true⟩, ⟨"0000000005.tar.gz".data, false⟩] =
      .ok (find_max_iter
        [⟨"0000000005".data, true⟩, ⟨"0000000005.tar.gz".data, false⟩] none + 1) ∧
    ExecCountDailySingleFrame.runcount
      [⟨"0000000005".data, true⟩, ⟨"0000000005.tar.gz".data, false⟩] =
      .ok (max (find_max_iter
            [⟨"0000000005".data, true⟩, ⟨"0000000005.tar.gz".data, false⟩] none + 1)
          (find_max_iter
            [⟨"0000000005".data, true⟩, ⟨"0000000005.tar.gz".data, false⟩]
            (some gzName)) + 1) :=
  C1_amended [⟨"0000000005".data, true⟩, ⟨"0000000005.tar.gz".data, false⟩]
    (by decide) (by decide)

/-- C2 counterexample: two constructions with archival enabled, of flavors
`UtcDaily` and `ExecCountDaily`, spawn two compression workers in one
process: each constructor consults its own function-local
`COMPRESSION_THREAD_TX` static, so the "process-wide" slot is per flavor
and more than one worker can exist. -/
theorem C2_counterexample :
    spawnCount (runConstructions
      [(Flavor.utcDaily, true), (Flavor.execCountDaily, true)]
      ProcState.init) = 2 ∧
    ¬ spawnCount (runConstructions
      [(Flavor.utcDaily, true), (Flavor.execCountDaily, true)]
      ProcState.init) ≤ 1 := by
  refine ⟨by decide, by decide⟩

/-- C2 amended: per flavor, at most one worker is ever spawned across any
sequence of constructions; the first same-flavor construction requesting
archival spawns the worker and publishes its sender in that flavor's
process-wide slot, and every later same-flavor construction with archival
enabled reuses that same sender without spawning. -/
theorem C2_amended (reqs : List (Flavor × Bool)) (f : Flavor) :
    spawnCountFor f (runConstructions reqs ProcState.init) ≤ 1 ∧
    (∀ (s : ProcState) (tx : Nat), s.slot f = some tx →
      get_compressor true s f = ((some tx, none), s)) := by
  constructor
  · exact (procInv_run reqs ProcState.init procInv_init f).1
  · intro s tx h
    unfold get_compressor
    rw [if_pos rfl, h]

/-- C2 amended, witness: three constructions of the same flavor spawn one
worker, and a populated slot is reused verbatim. -/
theorem C2_amended_witness :
    spawnCountFor Flavor.utcDaily (runConstructions
      [(Flavor.utcDaily, true), (Flavor.utcDaily, true),
       (Flavor.utcDaily, true)] ProcState.init) ≤ 1 ∧
    get_compressor true
        (runConstructions [(Flavor.utcDaily, true)] ProcState.init)
        Flavor.utcDaily =
      ((some 0, none), runConstructions [(Flavor.utcDaily, true)] ProcState.init) :=
  ⟨(C2_amended [(Flavor.utcDaily, true), (Flavor.utcDaily, true),
      (Flavor.utcDaily, true)] Flavor.utcDaily).1,
   (C2_amended [] Flavor.utcDaily).2
     (runConstructions [(Flavor.utcDaily, true)] ProcState.init) 0 rfl⟩

/-- C8 counterexample: a second `UtcDaily` construction with archival
enabled receives the published sender but no `JoinHandle`
(`(some 0, none)`), and `Drop for UtcDaily` sends nothing and joins
nothing for such a handle — so not every handle constructed with archival
enabled sends the stop sentinel and joins the worker on teardown. -/
theorem C8_counterexample :
    (get_compressor true
        (runConstructions [(Flavor.utcDaily, true)] ProcState.init)
        Flavor.utcDaily).1 = (some 0, none) ∧
    UtcDaily.dropEffect true false = (false, false) := by
  refine ⟨by decide, by decide⟩

/-- C8 amended: on teardown, a `UtcDaily` handle sends the stop sentinel
and joins exactly when it holds both the sender and the `JoinHandle`
(i.e. it spawned the worker); handles of the other flavors send the
sentinel whenever they hold a sender — halting the shared worker for all
siblings — but join only when they spawned it.  The spawner is the first
same-flavor construction requesting archival (it receives sender and
handle); later same-flavor constructions receive the sender only. -/
theorem C8_amended (tx hdl : Bool) (f : Flavor) :
    UtcDaily.dropEffect tx hdl = (tx && hdl, tx && hdl) ∧
    ExecCountDaily.dropEffect tx hdl = (tx, hdl) ∧
    (∀ s : ProcState, s.slot f = none →
      (get_compressor true s f).1 = (some s.nextId, some s.nextId)) ∧
    (∀ (s : ProcState) (c : Nat), s.slot f = some c →
      (get_compressor true s f).1 = (some c, none)) := by
  refine ⟨?_, rfl, ?_, ?_⟩
  · rcases tx <;> rcases hdl <;> rfl
  · intro s h
    unfold get_compressor
    rw [if_pos rfl, h]
  · intro s c h
    unfold get_compressor
    rw [if_pos rfl, h]

/-- C8 amended, witness. -/
theorem C8_amended_witness :
    UtcDaily.dropEffect true false = (true && false, true && false) ∧
    ExecCountDaily.dropEffect true false = (true, false) ∧
    (get_compressor true ProcState.init Flavor.utcDaily).1 =
      (some ProcState.init.nextId, some ProcState.init.nextId) ∧
    (get_compressor true
        (runConstructions [(Flavor.utcDaily, true)] ProcState.init)
        Flavor.utcDaily).1 = (some 0, none) := by
  have h := C8_amended true false Flavor.utcDaily
  exact ⟨h.1, h.2.1, h.2.2.1 ProcState.init rfl,
    h.2.2.2 (runConstructions [(Flavor.utcDaily, true)] ProcState.init) 0 rfl⟩

/-- The events of a `UtcDaily::store` call are exactly those of its
rotation check. -/
theorem UtcDaily.store_events (ext : Name) (s : UtcDailyState) (fs : FS)
    (t frame : Nat) :
    (UtcDaily.store ext s fs t frame).2.2.1 =
      (check_time_utcdaily ext s.core fs t).2.1 := rfl

/-- A `UtcDaily::store` call leaves the rotation state as the check
produced it, whichever writer branch ran. -/
theorem UtcDaily.store_core (ext : Name) (s : UtcDailyState) (fs : FS)
    (t frame : Nat) :
    (UtcDaily.store ext s fs t frame).1.core =
      (check_time_utcdaily ext s.core fs t).1 := by
  cases h : (check_time_utcdaily ext s.core fs t).2.2 with
  | New f => simp [UtcDaily.store, UtcDaily.get_writer_checked, h]
  | Old f =>
    cases hw : s.writer with
    | some w => simp [UtcDaily.store, UtcDaily.get_writer_checked, h, hw]
    | none => simp [UtcDaily.store, UtcDaily.get_writer_checked, h, hw]

theorem check_time_utcdaily_state (ext : Name) (s : DailyCore) (fs : FS)
    (t : Nat) :
    (check_time_utcdaily ext s fs t).1 =
      { s with current_dir := s.root_dir ++ [fmtDate t],
               last_date := some (fmtDate t) } := rfl

/-- On a date change with compression enabled, the rotation check emits
the archival request for the previous directory strictly before the
creation of the new day directory. -/
theorem check_time_utcdaily_rotate (ext : Name) (s : DailyCore) (fs : FS)
    (t : Nat) (hdate : s.last_date ≠ some (fmtDate t))
    (hcomp : s.compress = true) :
    (check_time_utcdaily ext s fs t).2.1 =
      [Event.send s.current_dir, Event.mkdir (s.root_dir ++ [fmtDate t])] := by
  unfold check_time_utcdaily
  simp only
  rw [if_pos ⟨hdate, hcomp⟩]
  rfl

/-- Days up to year 9999 stay distinct as `%Y%m%d` strings. -/
theorem fmtDate_ne_of_day_ne {t₁ t₂ : Nat} (h₁ : t₁ / 86400 ≤ 2930949)
    (h₂ : t₂ / 86400 ≤ 2930949) (h : t₁ / 86400 ≠ t₂ / 86400) :
    fmtDate t₁ ≠ fmtDate t₂ :=
  fun he => h (fmtDate_inj h₁ h₂ he)

/-- C9: on a freshly constructed time-based handle with compression
enabled, the very first store call takes the date-change branch (the
tracked date starts as `None`) and enqueues the handle's initial
`current_dir` — the empty path — on the archival channel before creating
the first real day directory: one spurious archival request. -/
theorem C9_first_call_spurious_archival (root : Path) (ext : Name)
    (t μ frame : Nat) :
    (UtcDaily.store ext (UtcDaily.initState root true) [] t frame).2.2.1 =
      [Event.send [], Event.mkdir (root ++ [fmtDate t])] ∧
    (UtcSingleFrame.store ext (UtcSingleFrame.initState root true)
        [] t μ frame).2.2.1 =
      [Event.send [], Event.mkdir (root ++ [fmtDate t])] := by
  constructor
  · rw [UtcDaily.store_events]
    exact check_time_utcdaily_rotate ext _ [] t (by simp [UtcDaily.initState]) rfl
  · show (check_time_utcdaily_single ext
      (UtcSingleFrame.initState root true) [] t μ).2.1 = _
    unfold check_time_utcdaily_single
    simp only
    rw [if_pos ⟨by simp [UtcSingleFrame.initState], rfl⟩]
    rfl

/-- C4: whenever a store call's timestamp falls on a UTC date other than
the tracked one, the previously current segment directory is enqueued on
the archival channel (when compression is enabled) before the new date's
directory is created; and storing at `T` then `T + 25h` on a fresh
compressing handle yields two distinct segment directories with exactly
one archival request for the first directory, enqueued before the second
directory is created. -/
theorem C4_enqueue_before_create (ext : Name) :
    (∀ (s : DailyCore) (fs : FS) (t : Nat),
      s.last_date ≠ some (fmtDate t) → s.compress = true →
      (check_time_utcdaily ext s fs t).2.1 =
        [Event.send s.current_dir, Event.mkdir (s.root_dir ++ [fmtDate t])]) ∧
    (∀ (root : Path) (fs : FS) (t f₁ f₂ : Nat),
      (t + 90000) / 86400 ≤ 2930949 →
      root ++ [fmtDate t] ≠ root ++ [fmtDate (t + 90000)] ∧
      (UtcDaily.store ext (UtcDaily.initState root true) fs t f₁).2.2.1 =
        [Event.send [], Event.mkdir (root ++ [fmtDate t])] ∧
      (UtcDaily.store ext
          (UtcDaily.store ext (UtcDaily.initState root true) fs t f₁).1
          (UtcDaily.store ext (UtcDaily.initState root true) fs t f₁).2.1
          (t + 90000) f₂).2.2.1 =
        [Event.send (root ++ [fmtDate t]),
         Event.mkdir (root ++ [fmtDate (t + 90000)])] ∧
      List.filter (fun e => e == Event.send (root ++ [fmtDate t]))
          ((UtcDaily.store ext (UtcDaily.initState root true) fs t f₁).2.2.1 ++
           (UtcDaily.store ext
              (UtcDaily.store ext (UtcDaily.initState root true) fs t f₁).1
              (UtcDaily.store ext (UtcDaily.initState root true) fs t f₁).2.1
              (t + 90000) f₂).2.2.1) =
        [Event.send (root ++ [fmtDate t])]) := by
  constructor
  · intro s fs t hdate hcomp
    exact check_time_utcdaily_rotate ext s fs t hdate hcomp
  · intro root fs t f₁ f₂ hbound
    have hdates : fmtDate t ≠ fmtDate (t + 90000) := by
      refine fmtDate_ne_of_day_ne (by omega) hbound (by omega)
    have hdirs : root ++ [fmtDate t] ≠ root ++ [fmtDate (t + 90000)] := by
      intro h
      exact hdates (by simpa using List.append_cancel_left h)
    have hev₁ :
        (UtcDaily.store ext (UtcDaily.initState root true) fs t f₁).2.2.1 =
        [Event.send [], Event.mkdir (root ++ [fmtDate t])] := by
      rw [UtcDaily.store_events]
      exact check_time_utcdaily_rotate ext _ fs t
        (by simp [UtcDaily.initState]) rfl
    have hcore :
        (UtcDaily.store ext (UtcDaily.initState root true) fs t f₁).1.core =
        { root_dir := root, current_dir := root ++ [fmtDate t],
          last_date := some (fmtDate t), compress := true } := by
      rw [UtcDaily.store_core, check_time_utcdaily_state]
      rfl
    have hev₂ :
        (UtcDaily.store ext
            (UtcDaily.store ext (UtcDaily.initState root true) fs t f₁).1
            (UtcDaily.store ext (UtcDaily.initState root true) fs t f₁).2.1
            (t + 90000) f₂).2.2.1 =
        [Event.send (root ++ [fmtDate t]),
         Event.mkdir (root ++ [fmtDate (t + 90000)])] := by
      rw [UtcDaily.store_events, hcore]
      exact check_time_utcdaily_rotate ext _ _ (t + 90000)
        (by simpa using hdates) rfl
    refine ⟨hdirs, hev₁, hev₂, ?_⟩
    rw [hev₁, hev₂]
    have hd₁ : (Event.send [] == Event.send (root ++ [fmtDate t])) = false := by
      simp only [beq_eq_false_iff_ne, ne_eq, Event.send.injEq]
      simp
    have hd₂ : (Event.mkdir (root ++ [fmtDate t]) ==
        Event.send (root ++ [fmtDate t])) = false := by
      simp
    have hd₃ : (Event.send (root ++ [fmtDate t]) ==
        Event.send (root ++ [fmtDate t])) = true := by
      simp
    have hd₄ : (Event.mkdir (root ++ [fmtDate (t + 90000)]) ==
        Event.send (root ++ [fmtDate t])) = false := by
      simp
    simp only [List.cons_append, List.nil_append, List.filter_cons,
      hd₁, hd₂, hd₃, hd₄, List.filter_nil]
    simp

/-- C4 witness at `T` = 2021-07-01 00:30:00 UTC. -/
theorem C4_enqueue_before_create_witness :
    ((check_time_utcdaily "bin".data
        { root_dir := ["r".data], current_dir := ["r".data, "20210630".data],
          last_date := some "20210630".data, compress := true } [] 1625099400).2.1 =
      [Event.send ["r".data, "20210630".data],
       Event.mkdir (["r".data] ++ [fmtDate 1625099400])]) ∧
    (["r".data] ++ [fmtDate 1625099400] ≠
        ["r".data] ++ [fmtDate (1625099400 + 90000)] ∧
      (UtcDaily.store "bin".data (UtcDaily.initState ["r".data] true) []
          1625099400 7).2.2.1 =
        [Event.send [], Event.mkdir (["r".data] ++ [fmtDate 1625099400])] ∧
      (UtcDaily.store "bin".data
          (UtcDaily.store "bin".data (UtcDaily.initState ["r".data] true) []
            1625099400 7).1
          (UtcDaily.store "bin".data (UtcDaily.initState ["r".data] true) []
            1625099400 7).2.1
          (1625099400 + 90000) 8).2.2.1 =
        [Event.send (["r".data] ++ [fmtDate 1625099400]),
         Event.mkdir (["r".data] ++ [fmtDate (1625099400 + 90000)])] ∧
      List.filter (fun e => e == Event.send (["r".data] ++ [fmtDate 1625099400]))
          ((UtcDaily.store "bin".data (UtcDaily.initState ["r".data] true) []
              1625099400 7).2.2.1 ++
           (UtcDaily.store "bin".data
              (UtcDaily.store "bin".data (UtcDaily.initState ["r".data] true) []
                1625099400 7).1
              (UtcDaily.store "bin".data (UtcDaily.initState ["r".data] true) []
                1625099400 7).2.1
              (1625099400 + 90000) 8).2.2.1) =
        [Event.send (["r".data] ++ [fmtDate 1625099400])]) :=
  ⟨(C4_enqueue_before_create "bin".data).1
      { root_dir := ["r".data], current_dir := ["r".data, "20210630".data],
        last_date := some "20210630".data, compress := true } [] 1625099400
      (by decide) rfl,
   (C4_enqueue_before_create "bin".data).2 ["r".data] [] 1625099400 7 8
      (by decide)⟩

theorem getFilename_ite (c : Prop) [Decidable c] (f : Path) :
    (if c then CheckedFileName.Old f else CheckedFileName.New f).getFilename = f := by
  split <;> rfl

/-- The single-frame check's classification, explicitly. -/
theorem check_single_checked (ext : Name) (s : DailyCore) (fs : FS)
    (t μ : Nat) :
    (check_time_utcdaily_single ext s fs t μ).2.2 =
      if fsMem fs ((s.root_dir ++ [fmtDate t]) ++ [singleFrameName t μ ext])
      then .Old ((s.root_dir ++ [fmtDate t]) ++ [singleFrameName t μ ext])
      else .New ((s.root_dir ++ [fmtDate t]) ++ [singleFrameName t μ ext]) := rfl

theorem check_single_state (ext : Name) (s : DailyCore) (fs : FS) (t μ : Nat) :
    (check_time_utcdaily_single ext s fs t μ).1 =
      { s with current_dir := s.root_dir ++ [fmtDate t],
               last_date := some (fmtDate t) } := rfl

/-- One-step characterization of `UtcSingleFrame::store`. -/
theorem UtcSingleFrame.store_eq (ext : Name) (s : DailyCore) (fs : FS)
    (t μ frame : Nat) :
    UtcSingleFrame.store ext s fs t μ frame =
      ((check_time_utcdaily_single ext s fs t μ).1,
       (if fsMem fs ((s.root_dir ++ [fmtDate t]) ++ [singleFrameName t μ ext])
        then fs
        else fsSet fs ((s.root_dir ++ [fmtDate t]) ++ [singleFrameName t μ ext])
          [frame]),
       (check_time_utcdaily_single ext s fs t μ).2.1,
       (if fsMem fs ((s.root_dir ++ [fmtDate t]) ++ [singleFrameName t μ ext])
        then Except.error IoErrorKind.alreadyExists
        else Except.ok
          ((s.root_dir ++ [fmtDate t]) ++ [singleFrameName t μ ext]))) := by
  by_cases hm : fsMem fs
      ((s.root_dir ++ [fmtDate t]) ++ [singleFrameName t μ ext]) = true
  · have h : (check_time_utcdaily_single ext s fs t μ).2.2 =
        .Old ((s.root_dir ++ [fmtDate t]) ++ [singleFrameName t μ ext]) := by
      rw [check_single_checked, if_pos hm]
    rw [show (s.root_dir ++ [fmtDate t]) ++ [singleFrameName t μ ext] =
        s.root_dir ++ [fmtDate t, singleFrameName t μ ext] from by simp] at hm
    simp [UtcSingleFrame.store, h, hm]
  · have h : (check_time_utcdaily_single ext s fs t μ).2.2 =
        .New ((s.root_dir ++ [fmtDate t]) ++ [singleFrameName t μ ext]) := by
      rw [check_single_checked, if_neg hm]
    rw [show (s.root_dir ++ [fmtDate t]) ++ [singleFrameName t μ ext] =
        s.root_dir ++ [fmtDate t, singleFrameName t μ ext] from by simp] at hm
    simp [UtcSingleFrame.store, h, hm]

/-- Distinct microsecond fields (below 10^6) give distinct single-frame
names for the same second. -/
theorem singleFrameName_inj_micro (t : Nat) (ext : Name) {μ μ' : Nat}
    (hμ : μ < 1000000) (hμ' : μ' < 1000000)
    (he : singleFrameName t μ ext = singleFrameName t μ' ext) : μ = μ' := by
  unfold singleFrameName at he
  simp only [List.append_assoc] at he
  have e₁ := List.append_cancel_left he
  have e₂ := List.append_cancel_left e₁
  have e₃ := List.append_cancel_left e₂
  have e₄ := List.append_cancel_left e₃
  have e₅ := List.append_cancel_left e₄
  obtain ⟨e₆, -⟩ := List.append_inj e₅ (by rw [fmtNat_length, fmtNat_length])
  exact fmtNat_inj 6 (by norm_num; exact hμ) (by norm_num; exact hμ') e₆

/-- C6: every `UtcSingleFrame` store call targets
`root/YYYYMMDD/YYYYMMDDHHMMSS.ffffff.<ext>`; the sub-second field makes
two same-second calls with different microseconds resolve to distinct
deterministic paths; and a true collision (identical timestamp) surfaces
as `AlreadyExists` without overwriting the stored frame. -/
theorem C6_singleframe_paths (ext : Name) (s : DailyCore) (fs : FS)
    (t μ μ' frame frame' : Nat) (hμ : μ < 1000000) (hμ' : μ' < 1000000) :
    ((check_time_utcdaily_single ext s fs t μ).2.2.getFilename =
      s.root_dir ++ [fmtDate t, singleFrameName t μ ext]) ∧
    (μ ≠ μ' →
      s.root_dir ++ [fmtDate t, singleFrameName t μ ext] ≠
      s.root_dir ++ [fmtDate t, singleFrameName t μ' ext]) ∧
    (fsMem fs ((s.root_dir ++ [fmtDate t]) ++ [singleFrameName t μ ext]) = false →
      (UtcSingleFrame.store ext s fs t μ frame).2.2.2 =
        .ok ((s.root_dir ++ [fmtDate t]) ++ [singleFrameName t μ ext]) ∧
      (UtcSingleFrame.store ext (UtcSingleFrame.store ext s fs t μ frame).1
          (UtcSingleFrame.store ext s fs t μ frame).2.1 t μ frame').2.2.2 =
        .error .alreadyExists ∧
      (UtcSingleFrame.store ext (UtcSingleFrame.store ext s fs t μ frame).1
          (UtcSingleFrame.store ext s fs t μ frame).2.1 t μ frame').2.1 =
        (UtcSingleFrame.store ext s fs t μ frame).2.1 ∧
      fsGet (UtcSingleFrame.store ext (UtcSingleFrame.store ext s fs t μ frame).1
          (UtcSingleFrame.store ext s fs t μ frame).2.1 t μ frame').2.1
        ((s.root_dir ++ [fmtDate t]) ++ [singleFrameName t μ ext]) =
        some [frame]) := by
  refine ⟨?_, ?_, ?_⟩
  · rw [check_single_checked, getFilename_ite, List.append_assoc]
    rfl
  · intro hne h
    have h₁ := List.append_cancel_left h
    have h₂ : singleFrameName t μ ext = singleFrameName t μ' ext := by
      simpa using h₁
    exact hne (singleFrameName_inj_micro t ext hμ hμ' h₂)
  · intro hfree
    have e₁ := UtcSingleFrame.store_eq ext s fs t μ frame
    rw [if_neg (by rw [hfree]; exact Bool.false_ne_true),
        if_neg (by rw [hfree]; exact Bool.false_ne_true)] at e₁
    have hstate : (UtcSingleFrame.store ext s fs t μ frame).1 =
        { s with current_dir := s.root_dir ++ [fmtDate t],
                 last_date := some (fmtDate t) } := by
      rw [e₁, check_single_state]
    have hfs : (UtcSingleFrame.store ext s fs t μ frame).2.1 =
        fsSet fs ((s.root_dir ++ [fmtDate t]) ++ [singleFrameName t μ ext])
          [frame] := by
      rw [e₁]
    have e₂ := UtcSingleFrame.store_eq ext
      (UtcSingleFrame.store ext s fs t μ frame).1
      (UtcSingleFrame.store ext s fs t μ frame).2.1 t μ frame'
    rw [hstate, hfs] at e₂
    have hmem : fsMem
        (fsSet fs ((s.root_dir ++ [fmtDate t]) ++ [singleFrameName t μ ext])
          [frame])
        ((({ s with current_dir := s.root_dir ++ [fmtDate t],
                    last_date := some (fmtDate t) } : DailyCore).root_dir ++
          [fmtDate t]) ++ [singleFrameName t μ ext]) = true := by
      exact fsMem_set_self fs _ [frame]
    rw [if_pos hmem, if_pos hmem] at e₂
    refine ⟨by rw [e₁], ?_, ?_, ?_⟩
    · rw [hstate, hfs, e₂]
    · rw [hstate, hfs, e₂]
    · rw [hstate, hfs, e₂]
      exact fsGet_set_self fs _ [frame]

/-- C6 witness at 2021-07-01 00:30:00 UTC, microseconds 1 and 2. -/
theorem C6_singleframe_paths_witness :
    ((check_time_utcdaily_single "bin".data
        (UtcSingleFrame.initState ["r".data] false) [] 1625099400 1).2.2.getFilename =
      (UtcSingleFrame.initState ["r".data] false).root_dir ++
        [fmtDate 1625099400, singleFrameName 1625099400 1 "bin".data]) ∧
    ((1 : Nat) ≠ 2 →
      (UtcSingleFrame.initState ["r".data] false).root_dir ++
        [fmtDate 1625099400, singleFrameName 1625099400 1 "bin".data] ≠
      (UtcSingleFrame.initState ["r".data] false).root_dir ++
        [fmtDate 1625099400, singleFrameName 1625099400 2 "bin".data]) ∧
    (fsMem []
        (((UtcSingleFrame.initState ["r".data] false).root_dir ++
          [fmtDate 1625099400]) ++
         [singleFrameName 1625099400 1 "bin".data]) = false →
      (UtcSingleFrame.store "bin".data (UtcSingleFrame.initState ["r".data] false)
          [] 1625099400 1 7).2.2.2 =
        .ok (((UtcSingleFrame.initState ["r".data] false).root_dir ++
          [fmtDate 1625099400]) ++ [singleFrameName 1625099400 1 "bin".data]) ∧
      (UtcSingleFrame.store "bin".data
          (UtcSingleFrame.store "bin".data
            (UtcSingleFrame.initState ["r".data] false) [] 1625099400 1 7).1
          (UtcSingleFrame.store "bin".data
            (UtcSingleFrame.initState ["r".data] false) [] 1625099400 1 7).2.1
          1625099400 1 8).2.2.2 =
        .error .alreadyExists ∧
      (UtcSingleFrame.store "bin".data
          (UtcSingleFrame.store "bin".data
            (UtcSingleFrame.initState ["r".data] false) [] 1625099400 1 7).1
          (UtcSingleFrame.store "bin".data
            (UtcSingleFrame.initState ["r".data] false) [] 1625099400 1 7).2.1
          1625099400 1 8).2.1 =
        (UtcSingleFrame.store "bin".data
          (UtcSingleFrame.initState ["r".data] false) [] 1625099400 1 7).2.1 ∧
      fsGet (UtcSingleFrame.store "bin".data
          (UtcSingleFrame.store "bin".data
            (UtcSingleFrame.initState ["r".data] false) [] 1625099400 1 7).1
          (UtcSingleFrame.store "bin".data
            (UtcSingleFrame.initState ["r".data] false) [] 1625099400 1 7).2.1
          1625099400 1 8).2.1
        (((UtcSingleFrame.initState ["r".data] false).root_dir ++
          [fmtDate 1625099400]) ++ [singleFrameName 1625099400 1 "bin".data]) =
        some [7]) :=
  C6_singleframe_paths "bin".data (UtcSingleFrame.initState ["r".data] false)
    [] 1625099400 1 2 7 8 (by decide) (by decide)

theorem day_of_hour_eq {t₁ t₂ : Nat} (h : t₁ / 3600 = t₂ / 3600) :
    t₁ / 86400 = t₂ / 86400 := by
  rw [show (86400 : Nat) = 3600 * 24 from rfl, ← Nat.div_div_eq_div_mul,
    ← Nat.div_div_eq_div_mul, h]

theorem hourOfDay_eq_mod (t : Nat) : t % 86400 / 3600 = t / 3600 % 24 := by
  rw [show (86400 : Nat) = 3600 * 24 from rfl, Nat.mod_mul_right_div_self]

theorem fmtDate_eq_of_hour {t₁ t₂ : Nat} (h : t₁ / 3600 = t₂ / 3600) :
    fmtDate t₁ = fmtDate t₂ := by
  unfold fmtDate
  rw [day_of_hour_eq h]

theorem fmtHour_eq_of_hour {t₁ t₂ : Nat} (h : t₁ / 3600 = t₂ / 3600) :
    fmtHour t₁ = fmtHour t₂ := by
  unfold fmtHour
  rw [hourOfDay_eq_mod, hourOfDay_eq_mod, h]

theorem fmtHour_ne_succ {t₁ t₃ : Nat} (h13 : t₃ / 3600 = t₁ / 3600 + 1) :
    fmtHour t₃ ≠ fmtHour t₁ := by
  intro he
  have h := fmtHour_inj he
  rw [hourOfDay_eq_mod, hourOfDay_eq_mod, h13] at h
  omega

/-- The hourly-append target file for timestamp `t`:
`root/YYYYMMDD/YYYYMMDDHH0000.<ext>`. -/
def hourlyTarget (root : Path) (t : Nat) (ext : Name) : Path :=
  (root ++ [fmtDate t]) ++ [fmtDate t ++ fmtHour t ++ "0000.".data ++ ext]

/-- First store call on a fresh hourly handle over an empty filesystem. -/
def hourlyRun1 (ext : Name) (root : Path) (compress : Bool) (t₁ a : Nat) :
    UtcHourlyState × FS × List Event × Path :=
  UtcHourly.store ext (UtcHourly.initState root compress) [] t₁ a

/-- Second store call, continuing from the first. -/
def hourlyRun2 (ext : Name) (root : Path) (compress : Bool)
    (t₁ a t₂ b : Nat) : UtcHourlyState × FS × List Event × Path :=
  UtcHourly.store ext (hourlyRun1 ext root compress t₁ a).1
    (hourlyRun1 ext root compress t₁ a).2.1 t₂ b

/-- Third store call, continuing from the second. -/
def hourlyRun3 (ext : Name) (root : Path) (compress : Bool)
    (t₁ a t₂ b t₃ c : Nat) : UtcHourlyState × FS × List Event × Path :=
  UtcHourly.store ext (hourlyRun2 ext root compress t₁ a t₂ b).1
    (hourlyRun2 ext root compress t₁ a t₂ b).2.1 t₃ c

/-- C3: two hourly-append store calls in the same UTC hour write into one
and the same file — the second call appends, leaving both frames in write
order — and a call in the next hour of the same UTC day creates a new
distinct file while the previous hour's file stays unmodified (and the
open writer moves to the new file). -/
theorem C3_hourly_append (ext : Name) (root : Path) (compress : Bool)
    (a b c t₁ t₂ t₃ : Nat) (h12 : t₁ / 3600 = t₂ / 3600)
    (h13 : t₃ / 3600 = t₁ / 3600 + 1) (hday : t₃ / 86400 = t₁ / 86400) :
    (hourlyRun1 ext root compress t₁ a).2.2.2 = hourlyTarget root t₁ ext ∧
    (hourlyRun2 ext root compress t₁ a t₂ b).2.2.2 = hourlyTarget root t₁ ext ∧
    fsGet (hourlyRun2 ext root compress t₁ a t₂ b).2.1
      (hourlyTarget root t₁ ext) = some [a, b] ∧
    (hourlyRun3 ext root compress t₁ a t₂ b t₃ c).2.2.2 =
      hourlyTarget root t₃ ext ∧
    hourlyTarget root t₃ ext ≠ hourlyTarget root t₁ ext ∧
    fsGet (hourlyRun3 ext root compress t₁ a t₂ b t₃ c).2.1
      (hourlyTarget root t₁ ext) = some [a, b] ∧
    fsGet (hourlyRun3 ext root compress t₁ a t₂ b t₃ c).2.1
      (hourlyTarget root t₃ ext) = some [c] ∧
    (hourlyRun3 ext root compress t₁ a t₂ b t₃ c).1.writer =
      some (hourlyTarget root t₃ ext) := by
  have hd2 : fmtDate t₂ = fmtDate t₁ := fmtDate_eq_of_hour h12.symm
  have hh2 : fmtHour t₂ = fmtHour t₁ := fmtHour_eq_of_hour h12.symm
  have hd3 : fmtDate t₃ = fmtDate t₁ := by unfold fmtDate; rw [hday]
  have hh3 : fmtHour t₃ ≠ fmtHour t₁ := fmtHour_ne_succ h13
  have e₁ : hourlyRun1 ext root compress t₁ a =
      ({ core := { root_dir := root, current_dir := root ++ [fmtDate t₁],
                   last_date := some (fmtDate t₁), compress := compress },
         last_hour := some (fmtHour t₁),
         writer := some (hourlyTarget root t₁ ext) },
       fsAppend (fsSet [] (hourlyTarget root t₁ ext) [])
         (hourlyTarget root t₁ ext) a,
       (if compress then [Event.send []] else []) ++
         [Event.mkdir (root ++ [fmtDate t₁])],
       hourlyTarget root t₁ ext) := by
    unfold hourlyRun1 UtcHourly.store check_time_utchourly UtcHourly.initState
      hourlyTarget
    simp [fsMem, fsGet]
  have e₂ : hourlyRun2 ext root compress t₁ a t₂ b =
      ((hourlyRun1 ext root compress t₁ a).1,
       fsAppend (hourlyRun1 ext root compress t₁ a).2.1
         (hourlyTarget root t₁ ext) b,
       [], hourlyTarget root t₁ ext) := by
    unfold hourlyRun2
    rw [e₁]
    unfold UtcHourly.store check_time_utchourly
    simp [hd2, hh2]
  have hne13 : (root ++ [fmtDate t₁]) ++
      [fmtDate t₁ ++ fmtHour t₃ ++ "0000.".data ++ ext] ≠
      hourlyTarget root t₁ ext := by
    unfold hourlyTarget
    intro h
    have h' : fmtDate t₁ ++ fmtHour t₃ ++ "0000.".data ++ ext =
        fmtDate t₁ ++ fmtHour t₁ ++ "0000.".data ++ ext := by
      simpa using List.append_cancel_left h
    simp only [List.append_assoc] at h'
    have h'' := List.append_cancel_left h'
    obtain ⟨h₃, -⟩ := List.append_inj h''
      (by rw [fmtHour, fmtHour, fmtNat_length, fmtNat_length])
    exact hh3 h₃
  have hget3 : fsGet
      (fsAppend (fsAppend (fsSet [] (hourlyTarget root t₁ ext) [])
        (hourlyTarget root t₁ ext) a) (hourlyTarget root t₁ ext) b)
      ((root ++ [fmtDate t₁]) ++
        [fmtDate t₁ ++ fmtHour t₃ ++ "0000.".data ++ ext]) = none := by
    rw [fsGet_append_ne _ _ _ _ hne13, fsGet_append_ne _ _ _ _ hne13,
      fsGet_set_ne _ _ _ _ hne13]
    rfl
  have hmem3 : fsMem
      (fsAppend (fsAppend (fsSet [] (hourlyTarget root t₁ ext) [])
        (hourlyTarget root t₁ ext) a) (hourlyTarget root t₁ ext) b)
      ((root ++ [fmtDate t₁]) ++
        [fmtDate t₁ ++ fmtHour t₃ ++ "0000.".data ++ ext]) = false := by
    unfold fsMem
    rw [hget3]
    rfl
  have e₃ : hourlyRun3 ext root compress t₁ a t₂ b t₃ c =
      ({ core := { root_dir := root, current_dir := root ++ [fmtDate t₁],
                   last_date := some (fmtDate t₁), compress := compress },
         last_hour := some (fmtHour t₃),
         writer := some ((root ++ [fmtDate t₁]) ++
           [fmtDate t₁ ++ fmtHour t₃ ++ "0000.".data ++ ext]) },
       fsAppend (fsSet
           (fsAppend (fsAppend (fsSet [] (hourlyTarget root t₁ ext) [])
             (hourlyTarget root t₁ ext) a) (hourlyTarget root t₁ ext) b)
           ((root ++ [fmtDate t₁]) ++
             [fmtDate t₁ ++ fmtHour t₃ ++ "0000.".data ++ ext]) [])
         ((root ++ [fmtDate t₁]) ++
           [fmtDate t₁ ++ fmtHour t₃ ++ "0000.".data ++ ext]) c,
       [],
       (root ++ [fmtDate t₁]) ++
         [fmtDate t₁ ++ fmtHour t₃ ++ "0000.".data ++ ext]) := by
    unfold hourlyRun3
    rw [e₂, e₁]
    unfold UtcHourly.store check_time_utchourly hourlyTarget
    unfold hourlyTarget at hmem3
    simp only [List.append_assoc] at hmem3
    simp at hmem3
    simp [hd3, Ne.symm hh3, hmem3]
  have hT3 : hourlyTarget root t₃ ext =
      (root ++ [fmtDate t₁]) ++
        [fmtDate t₁ ++ fmtHour t₃ ++ "0000.".data ++ ext] := by
    unfold hourlyTarget
    rw [hd3]
  have hgetF₁ : fsGet
      (fsAppend (fsSet [] (hourlyTarget root t₁ ext) [])
        (hourlyTarget root t₁ ext) a) (hourlyTarget root t₁ ext) =
      some [a] := by
    have := fsGet_append_self (fsSet [] (hourlyTarget root t₁ ext) [])
      (hourlyTarget root t₁ ext) a
      (fsGet_set_self [] (hourlyTarget root t₁ ext) [])
    simpa using this
  have hgetF₂ : fsGet
      (fsAppend (fsAppend (fsSet [] (hourlyTarget root t₁ ext) [])
        (hourlyTarget root t₁ ext) a) (hourlyTarget root t₁ ext) b)
      (hourlyTarget root t₁ ext) = some [a, b] := by
    have := fsGet_append_self
      (fsAppend (fsSet [] (hourlyTarget root t₁ ext) [])
        (hourlyTarget root t₁ ext) a)
      (hourlyTarget root t₁ ext) b hgetF₁
    simpa using this
  refine ⟨by rw [e₁], by rw [e₂], ?_, by rw [e₃, hT3], ?_, ?_, ?_,
    by rw [e₃, hT3]⟩
  · rw [e₂, e₁]
    exact hgetF₂
  · rw [hT3]
    exact hne13
  · rw [e₃]
    rw [fsGet_append_ne _ _ _ _ (fun h => hne13 h.symm),
      fsGet_set_ne _ _ _ _ (fun h => hne13 h.symm)]
    exact hgetF₂
  · rw [e₃, hT3]
    have := fsGet_append_self
      (fsSet (fsAppend (fsAppend (fsSet [] (hourlyTarget root t₁ ext) [])
          (hourlyTarget root t₁ ext) a) (hourlyTarget root t₁ ext) b)
        ((root ++ [fmtDate t₁]) ++
          [fmtDate t₁ ++ fmtHour t₃ ++ "0000.".data ++ ext]) [])
      ((root ++ [fmtDate t₁]) ++
        [fmtDate t₁ ++ fmtHour t₃ ++ "0000.".data ++ ext]) c
      (fsGet_set_self _ _ [])
    simpa using this

/-- C3 witness: 2021-07-01, calls at 00:30:00, 00:40:00 and 01:30:00 UTC. -/
theorem C3_hourly_append_witness :
    (hourlyRun1 "bin".data ["r".data] false 1625099400 7).2.2.2 =
      hourlyTarget ["r".data] 1625099400 "bin".data ∧
    (hourlyRun2 "bin".data ["r".data] false 1625099400 7 1625100000 8).2.2.2 =
      hourlyTarget ["r".data] 1625099400 "bin".data ∧
    fsGet (hourlyRun2 "bin".data ["r".data] false 1625099400 7 1625100000 8).2.1
      (hourlyTarget ["r".data] 1625099400 "bin".data) = some [7, 8] ∧
    (hourlyRun3 "bin".data ["r".data] false 1625099400 7 1625100000 8
        1625103000 9).2.2.2 =
      hourlyTarget ["r".data] 1625103000 "bin".data ∧
    hourlyTarget ["r".data] 1625103000 "bin".data ≠
      hourlyTarget ["r".data] 1625099400 "bin".data ∧
    fsGet (hourlyRun3 "bin".data ["r".data] false 1625099400 7 1625100000 8
        1625103000 9).2.1
      (hourlyTarget ["r".data] 1625099400 "bin".data) = some [7, 8] ∧
    fsGet (hourlyRun3 "bin".data ["r".data] false 1625099400 7 1625100000 8
        1625103000 9).2.1
      (hourlyTarget ["r".data] 1625103000 "bin".data) = some [9] ∧
    (hourlyRun3 "bin".data ["r".data] false 1625099400 7 1625100000 8
        1625103000 9).1.writer =
      some (hourlyTarget ["r".data] 1625103000 "bin".data) :=
  C3_hourly_append "bin".data ["r".data] false 7 8 9 1625099400 1625100000
    1625103000 (by decide) (by decide) (by decide)

end Datastor
